import Mathlib

/-!
# Verification of the dagor realtime scene-synchronization server

A shallow embedding of the socket server (`src/app/utils/coordinates.ts`,
embedded server source, lines 925-1981) in Lean 4, together with theorems
settling the specification claims about it.

Modelling conventions:
* JavaScript numbers are modelled as rationals (`ℚ`); the server only ever
  compares, adds, subtracts, and clamps, all of which are exact.
* A JavaScript `Map` is modelled as an association list in insertion order
  (`Map.set` replaces in place when the key exists, otherwise appends;
  `Map.delete` removes; iteration follows the list).
* A possibly-absent / non-string / non-number payload field is an `Option`.
  Falsy-string coercion (the pattern `s || null`) is modelled explicitly.
* Randomly generated values (colors from the palette, fresh ids, the
  current timestamp) are passed to the handlers as explicit parameters.
* Socket emissions are collected into a list of `Emit` values carrying the
  recipient scope (`io.emit` = all, `socket.broadcast.emit` = all but the
  sender, `socket.emit` / `targetSocket.emit` = one socket).
-/

namespace Dagor

/-! ## JavaScript `Map` as an insertion-ordered association list -/

/-- `Map.get`: the value bound to the first (unique) occurrence of `k`. -/
def mget {α : Type} : List (String × α) → String → Option α
  | [], _ => none
  | p :: rest, k => if p.1 = k then some p.2 else mget rest k

/-- `Map.set`: replace in place when the key exists, else append. -/
def mset {α : Type} : List (String × α) → String → α → List (String × α)
  | [], k, v => [(k, v)]
  | p :: rest, k, v => if p.1 = k then (k, v) :: rest else p :: mset rest k v

/-- `Map.delete`: remove the binding of `k` (all occurrences). -/
def mdel {α : Type} : List (String × α) → String → List (String × α)
  | [], _ => []
  | p :: rest, k => if p.1 = k then mdel rest k else p :: mdel rest k

/-- `Map.has`. -/
def mhas {α : Type} (m : List (String × α)) (k : String) : Bool :=
  (mget m k).isSome

theorem mget_mset_self {α : Type} (m : List (String × α)) (k : String) (v : α) :
    mget (mset m k v) k = some v := by
  induction m with
  | nil => simp [mget, mset]
  | cons p rest ih =>
      by_cases h : p.1 = k
      · simp [mget, mset, h]
      · simp [mget, mset, h, ih]

theorem mget_mset_ne {α : Type} (m : List (String × α)) (k k' : String) (v : α)
    (h : k' ≠ k) : mget (mset m k v) k' = mget m k' := by
  have hk : ¬k = k' := fun hh => h hh.symm
  induction m with
  | nil => simp [mget, mset, hk]
  | cons p rest ih =>
      by_cases hp : p.1 = k
      · simp [mget, mset, hp, hk]
      · by_cases hp' : p.1 = k'
        · simp [mget, mset, hp, hp', h]
        · simp [mget, mset, hp, hp', ih]

theorem mget_mdel_self {α : Type} (m : List (String × α)) (k : String) :
    mget (mdel m k) k = none := by
  induction m with
  | nil => simp [mget, mdel]
  | cons p rest ih =>
      by_cases h : p.1 = k
      · simp [mget, mdel, h, ih]
      · simp [mget, mdel, h, ih]

theorem mget_mdel_ne {α : Type} (m : List (String × α)) (k k' : String)
    (h : k' ≠ k) : mget (mdel m k) k' = mget m k' := by
  have hk : ¬k = k' := fun hh => h hh.symm
  induction m with
  | nil => simp [mget, mdel]
  | cons p rest ih =>
      by_cases hp : p.1 = k
      · simp [mget, mdel, hp, ih, hk]
      · by_cases hp' : p.1 = k'
        · simp [mget, mdel, hp, hp', h]
        · simp [mget, mdel, hp, hp', ih]

theorem mem_mset {α : Type} (m : List (String × α)) (k : String) (v : α)
    (p : String × α) : p ∈ mset m k v → p = (k, v) ∨ p ∈ m := by
  induction m with
  | nil => intro h; simp only [mset] at h; exact Or.inl (by simpa using h)
  | cons q rest ih =>
      intro h
      by_cases hq : q.1 = k
      · simp only [mset, if_pos hq, List.mem_cons] at h
        rcases h with h | h
        · exact Or.inl h
        · exact Or.inr (List.mem_cons_of_mem _ h)
      · simp only [mset, if_neg hq, List.mem_cons] at h
        rcases h with h | h
        · exact Or.inr (by simp [h])
        · rcases ih h with h' | h'
          · exact Or.inl h'
          · exact Or.inr (List.mem_cons_of_mem _ h')

theorem mem_mdel {α : Type} (m : List (String × α)) (k : String)
    (p : String × α) : p ∈ mdel m k → p ∈ m := by
  induction m with
  | nil => intro h; simp [mdel] at h
  | cons q rest ih =>
      intro h
      by_cases hq : q.1 = k
      · simp only [mdel, if_pos hq] at h
        exact List.mem_cons_of_mem _ (ih h)
      · simp only [mdel, if_neg hq, List.mem_cons] at h
        rcases h with h | h
        · exact List.mem_cons.mpr (Or.inl h)
        · exact List.mem_cons_of_mem _ (ih h)

theorem mget_isSome_of_mem {α : Type} (m : List (String × α)) (k : String)
    (v : α) : (k, v) ∈ m → (mget m k).isSome := by
  induction m with
  | nil => intro hv; cases hv
  | cons q rest ih =>
      intro hv
      rcases List.mem_cons.mp hv with h' | h'
      · simp [mget, ← h']
      · by_cases hq : q.1 = k
        · simp [mget, hq]
        · simpa [mget, hq] using ih h'

theorem mem_of_mget_eq_some {α : Type} (m : List (String × α)) (k : String)
    (v : α) : mget m k = some v → (k, v) ∈ m := by
  induction m with
  | nil => intro h; simp [mget] at h
  | cons q rest ih =>
      intro h
      by_cases hq : q.1 = k
      · simp only [mget, if_pos hq, Option.some.injEq] at h
        have hqkv : q = (k, v) := by
          calc q = (q.1, q.2) := rfl
          _ = (k, v) := by rw [hq, h]
        exact List.mem_cons.mpr (Or.inl hqkv.symm)
      · simp only [mget, if_neg hq] at h
        exact List.mem_cons_of_mem _ (ih h)

/-! ## Data model of the connection registry -/

/-- A position payload, two percentages. -/
structure Pos where
  x : ℚ
  y : ℚ
  deriving DecidableEq, Repr

/-- The `userData` object built by `initializeUser` (and, for freestanding
tokens, by the add-token handler).  Absent object keys are modelled by their
JavaScript read-back (`undefined`): `imageSrc` reads as `none`, the boolean
flags read as `false`. -/
structure UserData where
  id : String
  persistentUserId : String
  color : String
  position : Pos
  imageSrc : Option String
  isDisplay : Bool
  allowBattlemapMutations : Bool
  suppressPresence : Bool
  deriving DecidableEq, Repr

/-- An entry of `disconnectedUsers` (the Resurrection Cache). -/
structure DiscUser where
  id : String
  persistentUserId : String
  color : String
  position : Pos
  imageSrc : Option String
  disconnectedAt : ℕ
  deriving DecidableEq, Repr

/-- A cover of the legacy global `covers` map and of a battlemap. -/
structure Cover where
  id : String
  x : ℚ
  y : ℚ
  width : ℚ
  height : ℚ
  color : String
  deriving DecidableEq, Repr

/-- The shared mutable registries of the user subsystem
(`users`, `disconnectedUsers`, `displayModeUsers`). -/
structure UserWorld where
  users : List (String × UserData)
  disconnectedUsers : List (String × DiscUser)
  displayModeUsers : List (String × UserData)
  deriving DecidableEq, Repr

/-- Both registries empty: the state at server start. -/
def UserWorld.empty : UserWorld := ⟨[], [], []⟩

/-- The per-socket closure variables `userData` / `identificationReceived`. -/
structure ConnState where
  userData : Option UserData
  identificationReceived : Bool
  deriving DecidableEq, Repr

/-- Fresh connection: `userData = null`, `identificationReceived = false`. -/
def ConnState.fresh : ConnState := ⟨none, false⟩

/-- The payload of the `user-identify` message, after JavaScript reading of
possibly-absent keys (`data?.persistentUserId` as an optional string before
falsiness coercion, `data?.isDisplay || false`,
`Boolean(data?.suppressPresence)`, and `allowBattlemapMutations` only when a
boolean was supplied). -/
structure IdentifyData where
  persistentUserId : Option String
  isDisplay : Bool
  suppressPresence : Bool
  allowBattlemapMutations : Option Bool
  deriving DecidableEq, Repr

/-- The anonymous identification `initializeUser({})` used on timeout. -/
def IdentifyData.anon : IdentifyData := ⟨none, false, false, none⟩

/-- JavaScript `s || null` on a nullable string: the empty string is falsy. -/
def jsOrNull : Option String → Option String
  | some s => if s = "" then none else some s
  | none => none

/-- A payload field that is present: either of the expected JavaScript type,
or junk of another type (which the server's `typeof` checks reject). -/
inductive JsVal (α : Type) where
  | val (a : α)
  | junk
  deriving DecidableEq, Repr

/-- Read a field as a number exactly as `typeof f === 'number' ? f : d`. -/
def numOr (f : Option (JsVal ℚ)) (d : ℚ) : ℚ :=
  match f with
  | some (JsVal.val q) => q
  | _ => d

/-- Grid data held by a battlemap: two line arrays plus image dimensions. -/
structure GridData where
  verticalLines : List ℚ
  horizontalLines : List ℚ
  imageWidth : ℚ
  imageHeight : ℚ
  deriving DecidableEq, Repr

/-- A grid-data payload before sanitisation. -/
structure GridDataInput where
  verticalLines : Option (JsVal (List ℚ))
  horizontalLines : Option (JsVal (List ℚ))
  imageWidth : Option (JsVal ℚ)
  imageHeight : Option (JsVal ℚ)
  deriving DecidableEq, Repr

/-- Modelled from the spec: `createDefaultGridData` from `lib/defaultBattlemap.js`,
which is not part of the sources; the spec only requires a defined default
grid, so a fixed valid grid is used.  No claim depends on its value. -/
def createDefaultGridData : GridData := ⟨[], [], 1000, 1000⟩

/-- Modelled from the spec: `DEFAULT_BATTLEMAP_MAP_PATH` from the missing
`lib/defaultBattlemap.js`; a fixed string, only compared for equality. -/
def DEFAULT_BATTLEMAP_MAP_PATH : String := "/default-map.png"

/-- Modelled from the spec: `DEFAULT_BATTLEMAP_NAME` from the missing
`lib/defaultBattlemap.js`. -/
def DEFAULT_BATTLEMAP_NAME : String := "Default Battlemap"

/-- `sanitizeGridData`: each component falls back to the default grid when
missing or invalid (`none` models a payload that is not an object). -/
def sanitizeGridData (input : Option GridDataInput) : GridData :=
  let fallback := createDefaultGridData
  match input with
  | none => fallback
  | some candidate =>
      { verticalLines :=
          match candidate.verticalLines with
          | some (JsVal.val xs) => if xs.length > 0 then xs else fallback.verticalLines
          | _ => fallback.verticalLines
        horizontalLines :=
          match candidate.horizontalLines with
          | some (JsVal.val xs) => if xs.length > 0 then xs else fallback.horizontalLines
          | _ => fallback.horizontalLines
        imageWidth :=
          match candidate.imageWidth with
          | some (JsVal.val q) => if q > 0 then q else fallback.imageWidth
          | _ => fallback.imageWidth
        imageHeight :=
          match candidate.imageHeight with
          | some (JsVal.val q) => if q > 0 then q else fallback.imageHeight
          | _ => fallback.imageHeight }

/-- `GridData` rendered back as a (fully valid) input, for `cloneGridData`. -/
def GridData.asInput (g : GridData) : GridDataInput :=
  ⟨some (JsVal.val g.verticalLines), some (JsVal.val g.horizontalLines),
   some (JsVal.val g.imageWidth), some (JsVal.val g.imageHeight)⟩

/-- `cloneGridData()` with its default argument `DEFAULT_BATTLEMAP_GRID_DATA`
(the default grid). -/
def cloneGridDataDefault : GridData :=
  sanitizeGridData (some createDefaultGridData.asInput)

/-- `clampValue` / `clamp`: `Math.min(Math.max(value, lo), hi)`. -/
def clampValue (value lo hi : ℚ) : ℚ := min (max value lo) hi

/-- The non-id fields handed to `sanitizeCover`. -/
structure CoverFields where
  x : Option (JsVal ℚ)
  y : Option (JsVal ℚ)
  width : Option (JsVal ℚ)
  height : Option (JsVal ℚ)
  color : Option (JsVal String)
  deriving DecidableEq, Repr

/-- `sanitizeCover`: clamp width/height into `[0,100]`, then clamp `x`/`y`
into `[0, 100-width]` / `[0, 100-height]`; every caller supplies the id
explicitly. -/
def sanitizeCover (id : String) (input : CoverFields) : Cover :=
  let width := clampValue (numOr input.width 0) 0 100
  let height := clampValue (numOr input.height 0) 0 100
  let maxX := 100 - width
  let maxY := 100 - height
  { id := id
    width := width
    height := height
    x := clampValue (numOr input.x 0) 0 maxX
    y := clampValue (numOr input.y 0) 0 maxY
    color :=
      match input.color with
      | some (JsVal.val c) => if c.trim = "" then "#808080" else c
      | _ => "#808080" }

/-- A `Cover` as a fully-present field record, for the update-cover merge. -/
def Cover.asFields (c : Cover) : CoverFields :=
  ⟨some (JsVal.val c.x), some (JsVal.val c.y), some (JsVal.val c.width),
   some (JsVal.val c.height), some (JsVal.val c.color)⟩

/-- Object-spread merge `{...base, ...upd}` on cover fields: a key present in
`upd` (even junk) wins. -/
def mergeFields (base upd : CoverFields) : CoverFields :=
  ⟨upd.x.orElse (fun _ => base.x), upd.y.orElse (fun _ => base.y),
   upd.width.orElse (fun _ => base.width), upd.height.orElse (fun _ => base.height),
   upd.color.orElse (fun _ => base.color)⟩

/-- A battlemap in `battlemapState.maps`, covers in insertion order. -/
structure Battlemap where
  id : String
  name : String
  mapPath : Option String
  gridScale : ℚ
  gridOffsetX : ℚ
  gridOffsetY : ℚ
  gridData : GridData
  covers : List (String × Cover)
  deriving DecidableEq, Repr

/-- `battlemapState`. -/
structure BmState where
  order : List String
  maps : List (String × Battlemap)
  activeBattlemapId : Option String
  deriving DecidableEq, Repr

/-- The state before boot: empty registry, no active battlemap. -/
def BmState.empty : BmState := ⟨[], [], none⟩

/-- `serializeBattlemapSummary`. -/
structure BmSummary where
  id : String
  name : String
  mapPath : Option String
  deriving DecidableEq, Repr

/-- `serializeBattlemap`. -/
structure BmFull where
  id : String
  name : String
  mapPath : Option String
  gridScale : ℚ
  gridOffsetX : ℚ
  gridOffsetY : ℚ
  gridData : GridData
  covers : List Cover
  deriving DecidableEq, Repr

def serializeBattlemapSummary (b : Battlemap) : BmSummary := ⟨b.id, b.name, b.mapPath⟩

def serializeBattlemap (b : Battlemap) : BmFull :=
  ⟨b.id, b.name, b.mapPath, b.gridScale, b.gridOffsetX, b.gridOffsetY,
   b.gridData, b.covers.map Prod.snd⟩

theorem jsOrNull_none : jsOrNull none = none := rfl

/-- Broadcast payload used by the user lifecycle events. -/
structure UserPayload where
  userId : String
  persistentUserId : String
  color : String
  position : Pos
  imageSrc : Option String
  deriving DecidableEq, Repr

/-- The named socket events the server emits. -/
inductive Event where
  | userConnected (p : UserPayload)
  | allUsers (us : List UserData)
  | allCovers (cs : List Cover)
  | disconnectedList (ds : List DiscUser)
  | userJoined (p : UserPayload)
  | userReconnected (p : UserPayload)
  | userMoved (userId : String) (position : Pos)
  | userDisconnected (p : UserPayload)
  | tokenImageUpdated (userId : String) (imageSrc : Option String)
  | tokenRemoved (persistentUserId : String)
  | tokenAdded (userId : String) (persistentUserId : String)
      (color : String) (position : Pos)
  | coverAdded (c : Cover)
  | coverRemoved (id : String)
  | coverUpdated (c : Cover)
  | bmList (xs : List BmSummary)
  | bmActive (battlemapId : Option String)
  | bmUpdated (b : BmFull)
  | bmDeleted (battlemapId : String)
  deriving DecidableEq, Repr

/-- Who receives an emission: `io.emit` reaches every connection,
`socket.broadcast.emit` every connection but the sender,
`socket.emit` / `targetSocket.emit` exactly one connection. -/
inductive Scope where
  | toAll
  | toOthers (sender : String)
  | toSocket (sid : String)
  deriving DecidableEq, Repr

/-- One emission: recipient scope plus event. -/
structure Emit where
  scope : Scope
  event : Event
  deriving DecidableEq, Repr

/-- Whether the connection `sid` receives an emission. -/
def Emit.reaches (e : Emit) (sid : String) : Bool :=
  match e.scope with
  | Scope.toAll => true
  | Scope.toOthers sender => sid ≠ sender
  | Scope.toSocket s => sid = s

/-! ## Connection Registry handlers -/

/-- `initializeUser` (identify handshake).  Inputs: the socket id, the
socket's closure state, the shared registries, the legacy `covers` map (read
only, for the all-covers snapshot), the identify payload, and the color
produced by `getRandomColor()`.  Returns the new closure state, the new
registries, and the emissions, in program order. -/
def initializeUser (sid : String) (conn : ConnState) (w : UserWorld)
    (covers : List (String × Cover)) (data : IdentifyData)
    (randomColor : String) : ConnState × UserWorld × List Emit :=
  if conn.identificationReceived then (conn, w, []) else
  let persistentUserId := jsOrNull data.persistentUserId
  let restoredUserData : Option DiscUser :=
    match persistentUserId with
    | some p => mget w.disconnectedUsers p
    | none => none
  let disconnectedUsers1 :=
    match persistentUserId, restoredUserData with
    | some p, some _ => mdel w.disconnectedUsers p
    | _, _ => w.disconnectedUsers
  let color :=
    match restoredUserData with
    | some r => if r.color = "" then randomColor else r.color
    | none => randomColor
  let position :=
    match restoredUserData with
    | some r => r.position
    | none => (⟨50, 50⟩ : Pos)
  let isDisplay := data.isDisplay
  let suppressPresence := data.suppressPresence
  let allowBattlemapMutations := data.allowBattlemapMutations.getD isDisplay
  let ud : UserData :=
    { id := sid
      persistentUserId := persistentUserId.getD sid
      color := color
      position := position
      imageSrc := none
      isDisplay := isDisplay
      allowBattlemapMutations := allowBattlemapMutations
      suppressPresence := suppressPresence }
  let conn1 : ConnState := ⟨some ud, true⟩
  if suppressPresence then
    (conn1, { w with disconnectedUsers := disconnectedUsers1 }, [])
  else
    let users1 := if isDisplay then w.users else mset w.users sid ud
    let displayModeUsers1 :=
      if isDisplay then mset w.displayModeUsers sid ud else w.displayModeUsers
    let w1 : UserWorld := ⟨users1, disconnectedUsers1, displayModeUsers1⟩
    let payload : UserPayload :=
      ⟨sid, ud.persistentUserId, color, position, jsOrNull ud.imageSrc⟩
    let activeUsersList := (users1.map Prod.snd).filter (fun u => !u.isDisplay)
    let emits :=
      [Emit.mk (Scope.toSocket sid) (Event.userConnected payload),
       Emit.mk (Scope.toSocket sid) (Event.allUsers activeUsersList)]
      ++ (if covers.length > 0 then
            [Emit.mk (Scope.toSocket sid) (Event.allCovers (covers.map Prod.snd))]
          else [])
      ++ (if (disconnectedUsers1.map Prod.snd).length > 0 then
            [Emit.mk (Scope.toSocket sid)
              (Event.disconnectedList (disconnectedUsers1.map Prod.snd))]
          else [])
      ++ (if !isDisplay then
            match restoredUserData with
            | none => [Emit.mk (Scope.toOthers sid) (Event.userJoined payload)]
            | some _ => [Emit.mk (Scope.toOthers sid) (Event.userReconnected payload)]
          else [])
    (conn1, w1, emits)

/-- The `disconnect` handler.  `now` is `Date.now()`. -/
def disconnectHandler (sid : String) (w : UserWorld) (now : ℕ) :
    UserWorld × List Emit :=
  match mget w.users sid with
  | some user =>
      let persistentId := if user.persistentUserId = "" then sid else user.persistentUserId
      let d : DiscUser :=
        { id := persistentId
          persistentUserId := persistentId
          color := user.color
          position := user.position
          imageSrc := jsOrNull user.imageSrc
          disconnectedAt := now }
      (⟨mdel w.users sid, mset w.disconnectedUsers persistentId d, w.displayModeUsers⟩,
       [Emit.mk (Scope.toOthers sid)
          (Event.userDisconnected
            ⟨sid, persistentId, user.color, user.position, jsOrNull user.imageSrc⟩)])
  | none =>
      match mget w.displayModeUsers sid with
      | some _ => ({ w with displayModeUsers := mdel w.displayModeUsers sid }, [])
      | none => (w, [])

/-- Payload of `position-update`: either the new `{tokenId, position}` format
(with a truthy `tokenId`), or the old bare-position format. -/
inductive PositionPayload where
  | withToken (tokenId : String) (position : Pos)
  | plain (position : Pos)
  deriving DecidableEq, Repr

/-- The `position-update` handler.  Note the emission uses
`socket.broadcast.emit`, i.e. scope `toOthers sid`. -/
def positionUpdate (sid : String) (w : UserWorld) (data : PositionPayload) :
    UserWorld × List Emit :=
  let targetUserId := match data with
    | PositionPayload.withToken t _ => t
    | PositionPayload.plain _ => sid
  let position := match data with
    | PositionPayload.withToken _ p => p
    | PositionPayload.plain p => p
  match mget w.users targetUserId with
  | some targetUser =>
      ({ w with users := mset w.users targetUserId { targetUser with position := position } },
       [Emit.mk (Scope.toOthers sid) (Event.userMoved targetUserId position)])
  | none => (w, [])

/-- The `token-image-update` handler (`io.emit`, scope `toAll`).  A falsy
`tokenId` (absent or empty) is modelled as the empty string. -/
def tokenImageUpdate (w : UserWorld) (tokenId : String)
    (imageSrc : Option String) : UserWorld × List Emit :=
  if tokenId = "" then (w, []) else
  match mget w.users tokenId with
  | some targetUser =>
      ({ w with users := mset w.users tokenId { targetUser with imageSrc := jsOrNull imageSrc } },
       [Emit.mk Scope.toAll (Event.tokenImageUpdated tokenId (jsOrNull imageSrc))])
  | none => (w, [])

/-- The `for (const [activeUserId, activeUser] of users.entries())` search:
first entry (insertion order) whose `persistentUserId` matches. -/
def findByPersistentId : List (String × UserData) → String → Option (String × UserData)
  | [], _ => none
  | p :: rest, pid =>
      if p.2.persistentUserId = pid then some p else findByPersistentId rest pid

/-- The `remove-token` handler.  The gate is membership of the sender in
`displayModeUsers` plus a truthy `data.persistentUserId`; `connectedSockets`
models `io.sockets.sockets` (which sockets are currently live). -/
def removeToken (sid : String) (w : UserWorld) (connectedSockets : List String)
    (persistentUserId : Option String) : UserWorld × List Emit :=
  let isDisplayUser := mhas w.displayModeUsers sid
  match jsOrNull persistentUserId with
  | some pid =>
      if isDisplayUser then
        let disconnectedUsers1 :=
          if mhas w.disconnectedUsers pid then mdel w.disconnectedUsers pid
          else w.disconnectedUsers
        match findByPersistentId w.users pid with
        | some hit =>
            let users1 := mdel w.users hit.1
            let notifyEmits :=
              if hit.1 ∈ connectedSockets then
                [Emit.mk (Scope.toSocket hit.1) (Event.tokenRemoved pid)]
              else []
            (⟨users1, disconnectedUsers1, w.displayModeUsers⟩,
             notifyEmits ++ [Emit.mk Scope.toAll (Event.tokenRemoved pid)])
        | none =>
            (⟨w.users, disconnectedUsers1, w.displayModeUsers⟩,
             [Emit.mk Scope.toAll (Event.tokenRemoved pid)])
      else (w, [])
  | none => (w, [])

/-- The `add-token` handler.  `conn` is the sender's closure state, which the
handler never consults; `tokenId` and `persistentTokenId` are the two
freshly generated identifiers, `randomColor` the output of
`getRandomColor()`. -/
def addToken (conn : ConnState) (w : UserWorld) (color : Option String)
    (position : Option Pos) (tokenId persistentTokenId randomColor : String) :
    UserWorld × List Emit :=
  let _ := conn
  let tokenData : UserData :=
    { id := tokenId
      persistentUserId := persistentTokenId
      color := (jsOrNull color).getD randomColor
      position := position.getD ⟨50, 50⟩
      imageSrc := none
      isDisplay := false
      allowBattlemapMutations := false
      suppressPresence := false }
  ({ w with users := mset w.users tokenId tokenData },
   [Emit.mk Scope.toAll
      (Event.tokenAdded tokenId persistentTokenId tokenData.color tokenData.position)])

/-! ## Scene Store handlers (battlemaps and covers) -/

/-- An acknowledgement sent through the `ack` callback:
`{ok:true, ...}` (optionally carrying a fresh id) or `{ok:false, error}`. -/
inductive Ack where
  | success (info : Option String)
  | failure (error : String)
  deriving DecidableEq, Repr

/-- `ensureBattlemapMutator`: the sender's closure `userData` must exist and
have `allowBattlemapMutations`. -/
def allowMutation (conn : Option UserData) : Bool :=
  match conn with
  | some u => u.allowBattlemapMutations
  | none => false

/-- The summaries broadcast by `broadcastBattlemapList`. -/
def battlemapSummaries (st : BmState) : List BmSummary :=
  (st.order.filterMap (fun id => mget st.maps id)).map serializeBattlemapSummary

/-- `emitBattlemapUpdate`: broadcast the serialized battlemap if it exists. -/
def emitBattlemapUpdate (st : BmState) (battlemapId : String) : List Emit :=
  match mget st.maps battlemapId with
  | some b => [Emit.mk Scope.toAll (Event.bmUpdated (serializeBattlemap b))]
  | none => []

/-- `getDefaultBattlemapId`: the first battlemap in registry order whose
`mapPath` is the designated default map path. -/
def getDefaultBattlemapId (st : BmState) : Option String :=
  st.order.find? (fun id =>
    match mget st.maps id with
    | some b => decide (b.mapPath = some DEFAULT_BATTLEMAP_MAP_PATH)
    | none => false)

/-- The fallback `getDefaultBattlemapId() ?? order[0] ?? null`. -/
def fallbackActive (st : BmState) : Option String :=
  match getDefaultBattlemapId st with
  | some d => some d
  | none => st.order.head?

/-- `ensureActiveBattlemap`: keep a truthy active id that exists, else fall
back. -/
def ensureActiveBattlemap (st : BmState) : BmState :=
  match jsOrNull st.activeBattlemapId with
  | some id => if mhas st.maps id then st else { st with activeBattlemapId := fallbackActive st }
  | none => { st with activeBattlemapId := fallbackActive st }

/-- `getBattlemapOrRespond`: reject a falsy or non-string id, then an unknown
one. -/
def lookupBattlemap (st : BmState) (bid : Option (JsVal String)) :
    Except String Battlemap :=
  match bid with
  | some (JsVal.val s) =>
      if s = "" then Except.error "invalid-battlemap-id"
      else
        match mget st.maps s with
        | some b => Except.ok b
        | none => Except.error "battlemap-not-found"
  | _ => Except.error "invalid-battlemap-id"

/-- `typeof v === 'string' && v.trim() !== '' ? v.trim() : fallback`. -/
def trimmedOr (v : Option (JsVal String)) (fallback : Option String) : Option String :=
  match v with
  | some (JsVal.val s) => if s.trim = "" then fallback else some s.trim
  | _ => fallback

/-- The `battlemap:create` handler.  `genId` is the `randomUUID()` output. -/
def bmCreate (conn : Option UserData) (st : BmState)
    (name mapPath : Option (JsVal String)) (genId : String) :
    BmState × List Emit × Ack :=
  if !allowMutation conn then (st, [], Ack.failure "forbidden") else
  let trimmedName := (trimmedOr name none).getD "Untitled Battlemap"
  let sanitizedPath := trimmedOr mapPath none
  let newBattlemap : Battlemap :=
    { id := genId
      name := trimmedName
      mapPath := sanitizedPath
      gridScale := 1
      gridOffsetX := 0
      gridOffsetY := 0
      gridData := cloneGridDataDefault
      covers := [] }
  let st1 : BmState :=
    { order := st.order ++ [genId]
      maps := mset st.maps genId newBattlemap
      activeBattlemapId := st.activeBattlemapId }
  match jsOrNull st1.activeBattlemapId with
  | some _ =>
      (st1,
       [Emit.mk Scope.toAll (Event.bmList (battlemapSummaries st1))]
         ++ emitBattlemapUpdate st1 genId,
       Ack.success (some genId))
  | none =>
      let st2 := { st1 with activeBattlemapId := some genId }
      (st2,
       [Emit.mk Scope.toAll (Event.bmList (battlemapSummaries st1)),
        Emit.mk Scope.toAll (Event.bmActive (some genId))]
         ++ emitBattlemapUpdate st2 genId,
       Ack.success (some genId))

/-- The `battlemap:set-active` handler. -/
def bmSetActive (conn : Option UserData) (st : BmState)
    (battlemapId : Option (JsVal String)) : BmState × List Emit × Ack :=
  if !allowMutation conn then (st, [], Ack.failure "forbidden") else
  match battlemapId with
  | some (JsVal.val s) =>
      if s = "" ∨ ¬ mhas st.maps s then (st, [], Ack.failure "battlemap-not-found")
      else if st.activeBattlemapId ≠ some s then
        ({ st with activeBattlemapId := some s },
         [Emit.mk Scope.toAll (Event.bmActive (some s))], Ack.success none)
      else (st, [], Ack.success none)
  | _ => (st, [], Ack.failure "battlemap-not-found")

/-- The `battlemap:rename` handler. -/
def bmRename (conn : Option UserData) (st : BmState)
    (battlemapId name : Option (JsVal String)) : BmState × List Emit × Ack :=
  if !allowMutation conn then (st, [], Ack.failure "forbidden") else
  match lookupBattlemap st battlemapId with
  | Except.error e => (st, [], Ack.failure e)
  | Except.ok b =>
      let trimmedName := (trimmedOr name none).getD "Untitled Battlemap"
      let st1 := { st with maps := mset st.maps b.id { b with name := trimmedName } }
      (st1,
       [Emit.mk Scope.toAll (Event.bmList (battlemapSummaries st1))]
         ++ emitBattlemapUpdate st1 b.id,
       Ack.success none)

/-- The `battlemap:update-map-path` handler (also resets the grid data). -/
def bmUpdateMapPath (conn : Option UserData) (st : BmState)
    (battlemapId mapPath : Option (JsVal String)) : BmState × List Emit × Ack :=
  if !allowMutation conn then (st, [], Ack.failure "forbidden") else
  match lookupBattlemap st battlemapId with
  | Except.error e => (st, [], Ack.failure e)
  | Except.ok b =>
      let sanitizedPath := trimmedOr mapPath none
      let b1 := { b with mapPath := sanitizedPath, gridData := cloneGridDataDefault }
      let st1 := { st with maps := mset st.maps b.id b1 }
      (st1,
       [Emit.mk Scope.toAll (Event.bmList (battlemapSummaries st1))]
         ++ emitBattlemapUpdate st1 b.id,
       Ack.success none)

/-- The `battlemap:update-settings` handler: any subset of the three finite
numeric settings. -/
def bmUpdateSettings (conn : Option UserData) (st : BmState)
    (battlemapId : Option (JsVal String)) (gridScale gridOffsetX gridOffsetY : Option ℚ) :
    BmState × List Emit × Ack :=
  if !allowMutation conn then (st, [], Ack.failure "forbidden") else
  match lookupBattlemap st battlemapId with
  | Except.error e => (st, [], Ack.failure e)
  | Except.ok b =>
      let b1 := { b with
        gridScale := gridScale.getD b.gridScale
        gridOffsetX := gridOffsetX.getD b.gridOffsetX
        gridOffsetY := gridOffsetY.getD b.gridOffsetY }
      let st1 := { st with maps := mset st.maps b.id b1 }
      (st1, emitBattlemapUpdate st1 b.id, Ack.success none)

/-- The `battlemap:update-grid-data` handler: wholesale sanitized replace. -/
def bmUpdateGridData (conn : Option UserData) (st : BmState)
    (battlemapId : Option (JsVal String)) (gridData : Option GridDataInput) :
    BmState × List Emit × Ack :=
  if !allowMutation conn then (st, [], Ack.failure "forbidden") else
  match lookupBattlemap st battlemapId with
  | Except.error e => (st, [], Ack.failure e)
  | Except.ok b =>
      let st1 := { st with maps := mset st.maps b.id { b with gridData := sanitizeGridData gridData } }
      (st1, emitBattlemapUpdate st1 b.id, Ack.success none)

/-- The `battlemap:delete` handler. -/
def bmDelete (conn : Option UserData) (st : BmState)
    (battlemapId : Option (JsVal String)) : BmState × List Emit × Ack :=
  if !allowMutation conn then (st, [], Ack.failure "forbidden") else
  match lookupBattlemap st battlemapId with
  | Except.error e => (st, [], Ack.failure e)
  | Except.ok b =>
      let st1 : BmState :=
        { order := st.order.filter (fun id => id ≠ b.id)
          maps := mdel st.maps b.id
          activeBattlemapId := st.activeBattlemapId }
      let baseEmits :=
        [Emit.mk Scope.toAll (Event.bmList (battlemapSummaries st1)),
         Emit.mk Scope.toAll (Event.bmDeleted b.id)]
      if st1.activeBattlemapId = some b.id then
        let st2 := ensureActiveBattlemap st1
        (st2,
         baseEmits ++ [Emit.mk Scope.toAll (Event.bmActive st2.activeBattlemapId)],
         Ack.success none)
      else (st1, baseEmits, Ack.success none)

/-- The cover object of a `battlemap:add-cover` payload. -/
structure CoverInput where
  id : Option (JsVal String)
  fields : CoverFields
  deriving DecidableEq, Repr

/-- The `battlemap:add-cover` handler. `genId` is `generateCoverId()`. -/
def bmAddCover (conn : Option UserData) (st : BmState)
    (battlemapId : Option (JsVal String)) (cover : CoverInput) (genId : String) :
    BmState × List Emit × Ack :=
  if !allowMutation conn then (st, [], Ack.failure "forbidden") else
  match lookupBattlemap st battlemapId with
  | Except.error e => (st, [], Ack.failure e)
  | Except.ok b =>
      let coverId :=
        match cover.id with
        | some (JsVal.val s) => if s.trim = "" then genId else s
        | _ => genId
      let sanitized := sanitizeCover coverId cover.fields
      let st1 := { st with maps := mset st.maps b.id { b with covers := mset b.covers sanitized.id sanitized } }
      (st1, emitBattlemapUpdate st1 b.id, Ack.success (some sanitized.id))

/-- The `battlemap:update-cover` handler: merge the partial update into the
existing cover, then re-sanitize. -/
def bmUpdateCover (conn : Option UserData) (st : BmState)
    (battlemapId coverId : Option (JsVal String)) (updates : CoverFields) :
    BmState × List Emit × Ack :=
  if !allowMutation conn then (st, [], Ack.failure "forbidden") else
  match lookupBattlemap st battlemapId with
  | Except.error e => (st, [], Ack.failure e)
  | Except.ok b =>
      let existing :=
        match coverId with
        | some (JsVal.val s) => if s = "" then none else mget b.covers s
        | _ => none
      match coverId, existing with
      | some (JsVal.val cid), some ex =>
          let sanitized := sanitizeCover cid (mergeFields ex.asFields updates)
          let st1 := { st with maps := mset st.maps b.id { b with covers := mset b.covers sanitized.id sanitized } }
          (st1, emitBattlemapUpdate st1 b.id, Ack.success none)
      | _, _ => (st, [], Ack.failure "cover-not-found")

/-- The `battlemap:remove-cover` handler. -/
def bmRemoveCover (conn : Option UserData) (st : BmState)
    (battlemapId coverId : Option (JsVal String)) : BmState × List Emit × Ack :=
  if !allowMutation conn then (st, [], Ack.failure "forbidden") else
  match lookupBattlemap st battlemapId with
  | Except.error e => (st, [], Ack.failure e)
  | Except.ok b =>
      match coverId with
      | some (JsVal.val s) =>
          if s = "" ∨ ¬ mhas b.covers s then (st, [], Ack.failure "cover-not-found")
          else
            let st1 := { st with maps := mset st.maps b.id { b with covers := mdel b.covers s } }
            (st1, emitBattlemapUpdate st1 b.id, Ack.success none)
      | _ => (st, [], Ack.failure "cover-not-found")

/-! ## Legacy global cover handlers -/

/-- Payload of the legacy `add-cover` / `update-cover` events. -/
structure LegacyCoverPayload where
  id : Option (JsVal String)
  x : Option (JsVal ℚ)
  y : Option (JsVal ℚ)
  width : Option (JsVal ℚ)
  height : Option (JsVal ℚ)
  color : Option (JsVal String)
  deriving DecidableEq, Repr

/-- The legacy `add-cover` handler on the global `covers` map: requires all
four geometry fields to be numbers, clamps, broadcasts `cover-added`. -/
def addCoverHandler (covers : List (String × Cover))
    (data : Option LegacyCoverPayload) (genId : String) :
    List (String × Cover) × List Emit :=
  match data with
  | none => (covers, [])
  | some d =>
      match d.x, d.y, d.width, d.height with
      | some (JsVal.val x), some (JsVal.val y),
        some (JsVal.val width), some (JsVal.val height) =>
          let id :=
            match d.id with
            | some (JsVal.val s) => if s.trim = "" then genId else s
            | _ => genId
          let sanitizedWidth := clampValue width 0 100
          let sanitizedHeight := clampValue height 0 100
          let cover : Cover :=
            { id := id
              x := clampValue x 0 (100 - sanitizedWidth)
              y := clampValue y 0 (100 - sanitizedHeight)
              width := sanitizedWidth
              height := sanitizedHeight
              color :=
                match d.color with
                | some (JsVal.val c) => c
                | _ => "#808080" }
          (mset covers id cover, [Emit.mk Scope.toAll (Event.coverAdded cover)])
      | _, _, _, _ => (covers, [])

/-- The legacy `remove-cover` handler. -/
def removeCoverHandler (covers : List (String × Cover))
    (id : Option (JsVal String)) : List (String × Cover) × List Emit :=
  match id with
  | some (JsVal.val s) =>
      if mhas covers s then (mdel covers s, [Emit.mk Scope.toAll (Event.coverRemoved s)])
      else (covers, [])
  | _ => (covers, [])

/-- The legacy `update-cover` handler: collect the well-typed updates
(width/height already clamped), merge over the existing cover, then re-clamp
`x`/`y` against the merged width/height. -/
def updateCoverHandler (covers : List (String × Cover))
    (data : Option LegacyCoverPayload) : List (String × Cover) × List Emit :=
  match data with
  | none => (covers, [])
  | some d =>
      match d.id with
      | some (JsVal.val id) =>
          match mget covers id with
          | none => (covers, [])
          | some cover =>
              let updX := match d.x with | some (JsVal.val q) => some q | _ => none
              let updY := match d.y with | some (JsVal.val q) => some q | _ => none
              let updW := match d.width with
                | some (JsVal.val q) => some (clampValue q 0 100) | _ => none
              let updH := match d.height with
                | some (JsVal.val q) => some (clampValue q 0 100) | _ => none
              let updC := match d.color with | some (JsVal.val c) => some c | _ => none
              let nextWidth := updW.getD cover.width
              let nextHeight := updH.getD cover.height
              let maxX := 100 - nextWidth
              let maxY := 100 - nextHeight
              let nextCover : Cover :=
                { id := cover.id
                  x := clampValue (updX.getD cover.x) 0 maxX
                  y := clampValue (updY.getD cover.y) 0 maxY
                  width := nextWidth
                  height := nextHeight
                  color := updC.getD cover.color }
              (mset covers id nextCover,
               [Emit.mk Scope.toAll (Event.coverUpdated nextCover)])
      | _ => (covers, [])

/-! ## Boot: loading the battlemap state -/

/-- A `battlemaps` row as read from durable storage (`??` is nullish, so the
name falls back only when null, while the numeric settings use `typeof`
checks). -/
structure BmRow where
  id : String
  name : Option String
  mapPath : Option String
  gridScale : Option (JsVal ℚ)
  gridOffsetX : Option (JsVal ℚ)
  gridOffsetY : Option (JsVal ℚ)
  gridData : Option GridDataInput
  deriving DecidableEq, Repr

/-- A `battlemap_covers` row. -/
structure CoverRow where
  id : String
  battlemapId : String
  fields : CoverFields
  deriving DecidableEq, Repr

/-- The row seeded (and re-read) when storage is empty. -/
def seedRow (seedId : String) : BmRow :=
  ⟨seedId, some DEFAULT_BATTLEMAP_NAME, some DEFAULT_BATTLEMAP_MAP_PATH,
   some (JsVal.val 1), some (JsVal.val 0), some (JsVal.val 0),
   some createDefaultGridData.asInput⟩

/-- One row turned into the in-memory battlemap. -/
def rowToBattlemap (row : BmRow) : Battlemap :=
  { id := row.id
    name := row.name.getD DEFAULT_BATTLEMAP_NAME
    mapPath := row.mapPath
    gridScale := numOr row.gridScale 1
    gridOffsetX := numOr row.gridOffsetX 0
    gridOffsetY := numOr row.gridOffsetY 0
    gridData := sanitizeGridData row.gridData
    covers := [] }

/-- Attach one cover row to its parent battlemap (skipped when the parent is
unknown), sanitizing it. -/
def applyCoverRow (maps : List (String × Battlemap)) (c : CoverRow) :
    List (String × Battlemap) :=
  match mget maps c.battlemapId with
  | some parent =>
      mset maps c.battlemapId
        { parent with covers := mset parent.covers c.id (sanitizeCover c.id c.fields) }
  | none => maps

/-- `loadBattlemapStateFromSupabase`: seed one default row when storage is
empty, build the registry in row order, attach covers, then pick the active
battlemap (`default ?? first ?? null`). -/
def loadBattlemapState (rows : List BmRow) (coverRows : List CoverRow)
    (seedId : String) : BmState :=
  let battlemapRows := if rows.isEmpty then [seedRow seedId] else rows
  let maps0 := battlemapRows.foldl (fun acc row => mset acc row.id (rowToBattlemap row)) []
  let maps1 := coverRows.foldl applyCoverRow maps0
  let st0 : BmState := ⟨battlemapRows.map BmRow.id, maps1, none⟩
  { st0 with activeBattlemapId := fallbackActive st0 }

/-! ## The scene-mutating operations as one step machine -/

/-- Scene state: the battlemap registry plus the legacy global covers map. -/
structure SceneState where
  bm : BmState
  covers : List (String × Cover)
  deriving DecidableEq, Repr

/-- Server start: nothing loaded yet. -/
def SceneState.empty : SceneState := ⟨BmState.empty, []⟩

/-- Every operation that touches the scene state, with the issuing
connection's closure `userData` where the handler consults it. -/
inductive SceneOp where
  | boot (rows : List BmRow) (coverRows : List CoverRow) (seedId : String)
  | create (conn : Option UserData) (name mapPath : Option (JsVal String)) (genId : String)
  | setActive (conn : Option UserData) (battlemapId : Option (JsVal String))
  | rename (conn : Option UserData) (battlemapId name : Option (JsVal String))
  | updateMapPath (conn : Option UserData) (battlemapId mapPath : Option (JsVal String))
  | updateSettings (conn : Option UserData) (battlemapId : Option (JsVal String))
      (gridScale gridOffsetX gridOffsetY : Option ℚ)
  | updateGridData (conn : Option UserData) (battlemapId : Option (JsVal String))
      (gridData : Option GridDataInput)
  | deleteMap (conn : Option UserData) (battlemapId : Option (JsVal String))
  | addCoverB (conn : Option UserData) (battlemapId : Option (JsVal String))
      (cover : CoverInput) (genId : String)
  | updateCoverB (conn : Option UserData) (battlemapId coverId : Option (JsVal String))
      (updates : CoverFields)
  | removeCoverB (conn : Option UserData) (battlemapId coverId : Option (JsVal String))
  | addCoverL (data : Option LegacyCoverPayload) (genId : String)
  | updateCoverL (data : Option LegacyCoverPayload)
  | removeCoverL (id : Option (JsVal String))

/-- Apply one operation through the corresponding handler, keeping only the
state (emissions and acknowledgements are per-handler). -/
def applySceneOp (s : SceneState) : SceneOp → SceneState
  | SceneOp.boot rows coverRows seedId =>
      { s with bm := loadBattlemapState rows coverRows seedId }
  | SceneOp.create conn name mapPath genId =>
      { s with bm := (bmCreate conn s.bm name mapPath genId).1 }
  | SceneOp.setActive conn battlemapId =>
      { s with bm := (bmSetActive conn s.bm battlemapId).1 }
  | SceneOp.rename conn battlemapId name =>
      { s with bm := (bmRename conn s.bm battlemapId name).1 }
  | SceneOp.updateMapPath conn battlemapId mapPath =>
      { s with bm := (bmUpdateMapPath conn s.bm battlemapId mapPath).1 }
  | SceneOp.updateSettings conn battlemapId a b c =>
      { s with bm := (bmUpdateSettings conn s.bm battlemapId a b c).1 }
  | SceneOp.updateGridData conn battlemapId gd =>
      { s with bm := (bmUpdateGridData conn s.bm battlemapId gd).1 }
  | SceneOp.deleteMap conn battlemapId =>
      { s with bm := (bmDelete conn s.bm battlemapId).1 }
  | SceneOp.addCoverB conn battlemapId cover genId =>
      { s with bm := (bmAddCover conn s.bm battlemapId cover genId).1 }
  | SceneOp.updateCoverB conn battlemapId coverId updates =>
      { s with bm := (bmUpdateCover conn s.bm battlemapId coverId updates).1 }
  | SceneOp.removeCoverB conn battlemapId coverId =>
      { s with bm := (bmRemoveCover conn s.bm battlemapId coverId).1 }
  | SceneOp.addCoverL data genId =>
      { s with covers := (addCoverHandler s.covers data genId).1 }
  | SceneOp.updateCoverL data =>
      { s with covers := (updateCoverHandler s.covers data).1 }
  | SceneOp.removeCoverL id =>
      { s with covers := (removeCoverHandler s.covers id).1 }

/-- Run a sequence of scene operations from server start. -/
def runScene (ops : List SceneOp) : SceneState :=
  ops.foldl applySceneOp SceneState.empty

/-! ## Further association-list lemmas -/

theorem mset_append_of_mget_none {α : Type} (m : List (String × α)) (k : String)
    (v : α) (h : mget m k = none) : mset m k v = m ++ [(k, v)] := by
  induction m with
  | nil => simp [mset]
  | cons p rest ih =>
      by_cases hp : p.1 = k
      · simp [mget, hp] at h
      · simp only [mget, if_neg hp] at h
        simp [mset, hp, ih h]

theorem mdel_of_mget_none {α : Type} (m : List (String × α)) (k : String)
    (h : mget m k = none) : mdel m k = m := by
  induction m with
  | nil => simp [mdel]
  | cons p rest ih =>
      by_cases hp : p.1 = k
      · simp [mget, hp] at h
      · simp only [mget, if_neg hp] at h
        simp [mdel, hp, ih h]

theorem mhas_mset_self {α : Type} (m : List (String × α)) (k : String) (v : α) :
    mhas (mset m k v) k = true := by
  simp [mhas, mget_mset_self]

theorem mhas_mset_ne {α : Type} (m : List (String × α)) (k k' : String) (v : α)
    (h : k' ≠ k) : mhas (mset m k v) k' = mhas m k' := by
  simp [mhas, mget_mset_ne m k k' v h]

theorem mhas_mset_of_mhas {α : Type} (m : List (String × α)) (k k' : String)
    (v : α) (h : mhas m k' = true) : mhas (mset m k v) k' = true := by
  by_cases hk : k' = k
  · subst hk; exact mhas_mset_self m k' v
  · rw [mhas_mset_ne m k k' v hk]; exact h

theorem mhas_mdel_ne {α : Type} (m : List (String × α)) (k k' : String)
    (h : k' ≠ k) : mhas (mdel m k) k' = mhas m k' := by
  simp [mhas, mget_mdel_ne m k k' h]

theorem mem_mdel_ne {α : Type} (m : List (String × α)) (k : String)
    (p : String × α) : p ∈ mdel m k → p.1 ≠ k := by
  induction m with
  | nil => intro h; simp [mdel] at h
  | cons q rest ih =>
      intro h
      by_cases hq : q.1 = k
      · simp only [mdel, if_pos hq] at h
        exact ih h
      · simp only [mdel, if_neg hq, List.mem_cons] at h
        rcases h with h | h
        · subst h; exact hq
        · exact ih h

/-! ## Shared concrete fixtures for counterexamples and witnesses -/

/-- A live freestanding participant token registered under id `"A"`. -/
def tokenA : UserData :=
  { id := "A", persistentUserId := "PA", color := "#ef4444",
    position := ⟨50, 50⟩, imageSrc := none, isDisplay := false,
    allowBattlemapMutations := false, suppressPresence := false }

/-- A world holding only `tokenA`. -/
def worldA : UserWorld := ⟨[("A", tokenA)], [], []⟩

/-- A participant Presence without battlemap-mutation authority. -/
def participantNoAuth : UserData :=
  { id := "p1", persistentUserId := "PP1", color := "#3b82f6",
    position := ⟨50, 50⟩, imageSrc := none, isDisplay := false,
    allowBattlemapMutations := false, suppressPresence := false }

/-- A one-battlemap registry fixture. -/
def mapOne : Battlemap :=
  { id := "m1", name := "Cave", mapPath := none, gridScale := 1,
    gridOffsetX := 0, gridOffsetY := 0, gridData := createDefaultGridData,
    covers := [] }

/-- A registry holding only `mapOne`, which is active. -/
def bmOne : BmState := ⟨["m1"], [("m1", mapOne)], some "m1"⟩

/-! ## C5: rejected mutations are atomic and private -/

/-- C5: a `battlemap:rename` issued by a connection whose Presence lacks
mutation authority (or that has no Presence yet) is acknowledged
`{ok:false, error:"forbidden"}`, leaves the scene state — in particular
every battlemap's name — unchanged, and emits no broadcast, so other
connections observe nothing. -/
theorem rename_forbidden_atomic_private (conn : Option UserData) (st : BmState)
    (battlemapId name : Option (JsVal String)) (h : allowMutation conn = false) :
    bmRename conn st battlemapId name = (st, [], Ack.failure "forbidden") := by
  simp [bmRename, h]

/-- Witness for C5: a participant-role Presence renaming the active
battlemap of the one-map fixture. -/
theorem rename_forbidden_atomic_private_witness :
    allowMutation (some participantNoAuth) = false ∧
    bmRename (some participantNoAuth) bmOne (some (JsVal.val "m1"))
        (some (JsVal.val "Sneaky")) = (bmOne, [], Ack.failure "forbidden") :=
  ⟨by decide,
   rename_forbidden_atomic_private (some participantNoAuth) bmOne
     (some (JsVal.val "m1")) (some (JsVal.val "Sneaky")) (by decide)⟩

/-! ## C10: add-token is honored for every connection, unchecked -/

/-- C10: the add-token handler consults neither the sender's identification
state nor any authority: for every closure state (identified or not) it
inserts a freestanding token under the freshly generated id, with the
freshly generated distinct persistent id, color defaulting to the random
palette color and position to (50,50) when absent, `isDisplay = false`, and
broadcasts `token-added` to all connections (`io.emit`).  The freshness of
the two generated ids (`hfresh`, `hne`) models the generator. -/
theorem add_token_unconditional (conn conn' : ConnState) (w : UserWorld)
    (color : Option String) (position : Option Pos)
    (tokenId persistentTokenId randomColor : String)
    (hfresh : mget w.users tokenId = none) (hne : tokenId ≠ persistentTokenId) :
    ∃ tok : UserData,
      addToken conn w color position tokenId persistentTokenId randomColor =
        ({ w with users := w.users ++ [(tokenId, tok)] },
         [Emit.mk Scope.toAll
            (Event.tokenAdded tokenId persistentTokenId tok.color tok.position)]) ∧
      addToken conn' w color position tokenId persistentTokenId randomColor =
        addToken conn w color position tokenId persistentTokenId randomColor ∧
      tok.id = tokenId ∧ tok.persistentUserId = persistentTokenId ∧
      tok.persistentUserId ≠ tok.id ∧
      tok.color = (jsOrNull color).getD randomColor ∧
      tok.position = position.getD ⟨50, 50⟩ ∧
      tok.isDisplay = false ∧ tok.allowBattlemapMutations = false := by
  refine ⟨{ id := tokenId, persistentUserId := persistentTokenId,
            color := (jsOrNull color).getD randomColor,
            position := position.getD ⟨50, 50⟩, imageSrc := none,
            isDisplay := false, allowBattlemapMutations := false,
            suppressPresence := false }, ?_, rfl, rfl, rfl,
          fun hh => hne hh.symm, rfl, rfl, rfl, rfl⟩
  simp only [addToken]
  rw [mset_append_of_mget_none w.users tokenId _ hfresh]

/-- Witness for C10: an unidentified connection adds a token to the
single-token world. -/
theorem add_token_unconditional_witness :
    mget worldA.users "t9" = none ∧ "t9" ≠ "pt9" ∧
    ∃ tok : UserData,
      addToken ConnState.fresh worldA none none "t9" "pt9" "#10b981" =
        ({ worldA with users := worldA.users ++ [("t9", tok)] },
         [Emit.mk Scope.toAll (Event.tokenAdded "t9" "pt9" tok.color tok.position)]) ∧
      addToken ⟨some tokenA, true⟩ worldA none none "t9" "pt9" "#10b981" =
        addToken ConnState.fresh worldA none none "t9" "pt9" "#10b981" ∧
      tok.id = "t9" ∧ tok.persistentUserId = "pt9" ∧
      tok.persistentUserId ≠ tok.id ∧
      tok.color = (jsOrNull none).getD "#10b981" ∧
      tok.position = Option.getD none ⟨50, 50⟩ ∧
      tok.isDisplay = false ∧ tok.allowBattlemapMutations = false :=
  ⟨by decide, by decide,
   add_token_unconditional ConnState.fresh ⟨some tokenA, true⟩ worldA none none
     "t9" "pt9" "#10b981" (by decide) (by decide)⟩

/-! ## C3: position / image updates check only that the target exists -/

/-- C3 counterexample: sender `"B"` has no Presence at all (so certainly no
mutation authority, and token `"A"` is not its own), yet its
`position-update` naming `"A"` is applied — token `"A"` moves — and is
broadcast.  This refutes the claim that such an update is applied only when
the target is the issuer's own token or the issuer holds mutation
authority. -/
theorem position_update_ignores_authority_counterexample :
    mget worldA.users "B" = none ∧
    mget (positionUpdate "B" worldA (PositionPayload.withToken "A" ⟨10, 20⟩)).1.users "A" =
      some { tokenA with position := ⟨10, 20⟩ } ∧
    (positionUpdate "B" worldA (PositionPayload.withToken "A" ⟨10, 20⟩)).2 =
      [Emit.mk (Scope.toOthers "B") (Event.userMoved "A" ⟨10, 20⟩)] := by
  decide

/-- C3 amended: a `position-update` or `token-image-update` naming a truthy
token id is applied and broadcast exactly when the target token exists in
the active registry; the handlers consult neither ownership nor mutation
authority. -/
theorem token_updates_iff_target_exists (sid : String) (w : UserWorld)
    (tokenId : String) (pos : Pos) (imageSrc : Option String)
    (htid : tokenId ≠ "") :
    (∀ u, mget w.users tokenId = some u →
       positionUpdate sid w (PositionPayload.withToken tokenId pos) =
         ({ w with users := mset w.users tokenId { u with position := pos } },
          [Emit.mk (Scope.toOthers sid) (Event.userMoved tokenId pos)]) ∧
       tokenImageUpdate w tokenId imageSrc =
         ({ w with users := mset w.users tokenId { u with imageSrc := jsOrNull imageSrc } },
          [Emit.mk Scope.toAll (Event.tokenImageUpdated tokenId (jsOrNull imageSrc))])) ∧
    (mget w.users tokenId = none →
       positionUpdate sid w (PositionPayload.withToken tokenId pos) = (w, []) ∧
       tokenImageUpdate w tokenId imageSrc = (w, [])) := by
  constructor
  · intro u hu
    constructor
    · simp [positionUpdate, hu]
    · simp [tokenImageUpdate, htid, hu]
  · intro hnone
    constructor
    · simp [positionUpdate, hnone]
    · simp [tokenImageUpdate, htid, hnone]

/-- Witness for the amended C3, at the single-token world. -/
theorem token_updates_iff_target_exists_witness :
    ("A" : String) ≠ "" ∧
    ((∀ u, mget worldA.users "A" = some u →
       positionUpdate "B" worldA (PositionPayload.withToken "A" ⟨10, 20⟩) =
         ({ worldA with users := mset worldA.users "A" { u with position := ⟨10, 20⟩ } },
          [Emit.mk (Scope.toOthers "B") (Event.userMoved "A" ⟨10, 20⟩)]) ∧
       tokenImageUpdate worldA "A" (some "img") =
         ({ worldA with users := mset worldA.users "A" { u with imageSrc := jsOrNull (some "img") } },
          [Emit.mk Scope.toAll (Event.tokenImageUpdated "A" (jsOrNull (some "img")))])) ∧
     (mget worldA.users "A" = none →
       positionUpdate "B" worldA (PositionPayload.withToken "A" ⟨10, 20⟩) = (worldA, []) ∧
       tokenImageUpdate worldA "A" (some "img") = (worldA, []))) :=
  ⟨by decide,
   token_updates_iff_target_exists "B" worldA "A" ⟨10, 20⟩ (some "img") (by decide)⟩

/-! ## C6: the accepted position-update echo does not reach its sender -/

/-- C6: the code's own comment says the applied position update is broadcast
to all clients including the sender, and the spec asserts the same, but the
handler uses `socket.broadcast.emit`: the single `user-moved` emission has
scope `toOthers sender` and does not reach the sender, while the analogous
`token-image-update` uses `io.emit` and does reach it.  Evaluated at the
failing input: sender `"B"` moving existing token `"A"`. -/
theorem position_update_echo_skips_sender :
    (positionUpdate "B" worldA (PositionPayload.withToken "A" ⟨10, 20⟩)).2 =
      [Emit.mk (Scope.toOthers "B") (Event.userMoved "A" ⟨10, 20⟩)] ∧
    ((Emit.mk (Scope.toOthers "B") (Event.userMoved "A" ⟨10, 20⟩)).reaches "B" = false) ∧
    (tokenImageUpdate worldA "A" (some "img")).2 =
      [Emit.mk Scope.toAll (Event.tokenImageUpdated "A" (some "img"))] ∧
    ((Emit.mk Scope.toAll (Event.tokenImageUpdated "A" (some "img"))).reaches "B" = true) := by
  decide

/-! ## C4: remove-token is gated on display-mode membership, not authority -/

/-- A freestanding live token with persistent id `"P"`. -/
def tokenT : UserData :=
  { id := "T", persistentUserId := "P", color := "#f59e0b",
    position := ⟨30, 40⟩, imageSrc := none, isDisplay := false,
    allowBattlemapMutations := false, suppressPresence := false }

/-- A resurrection-cache entry sharing persistent id `"P"`. -/
def discP : DiscUser :=
  { id := "P", persistentUserId := "P", color := "#8b5cf6",
    position := ⟨1, 2⟩, imageSrc := none, disconnectedAt := 5 }

/-- A display-mode Presence that was identified with
`allowBattlemapMutations = false`: display role, no mutation authority. -/
def displayNoAuth : UserData :=
  { id := "D", persistentUserId := "PD", color := "#06b6d4",
    position := ⟨50, 50⟩, imageSrc := none, isDisplay := true,
    allowBattlemapMutations := false, suppressPresence := false }

/-- A participant Presence identified with `allowBattlemapMutations = true`:
mutation authority without the display role. -/
def gmUser : UserData :=
  { id := "G", persistentUserId := "PG", color := "#ec4899",
    position := ⟨50, 50⟩, imageSrc := none, isDisplay := false,
    allowBattlemapMutations := true, suppressPresence := false }

/-- World with a live token, a live authorized participant, a cache entry
for `"P"`, and a no-authority display connection. -/
def worldB : UserWorld :=
  ⟨[("T", tokenT), ("G", gmUser)], [("P", discP)], [("D", displayNoAuth)]⟩

/-- C4 counterexample: the gate is display-mode membership, not mutation
authority.  The display connection `"D"` — whose Presence has
`allowBattlemapMutations = false` — successfully removes persistent id
`"P"` (both the live token and the cache entry go away and `token-removed`
is broadcast), while the participant `"G"` — whose Presence *has* mutation
authority — achieves nothing.  Both directions of the claimed
"honored iff mutation authority" fail. -/
theorem remove_token_authority_counterexample :
    displayNoAuth.allowBattlemapMutations = false ∧
    removeToken "D" worldB ["D", "G"] (some "P") =
      (⟨[("G", gmUser)], [], worldB.displayModeUsers⟩,
       [Emit.mk Scope.toAll (Event.tokenRemoved "P")]) ∧
    gmUser.allowBattlemapMutations = true ∧
    removeToken "G" worldB ["D", "G"] (some "P") = (worldB, []) := by
  decide

/-- C4 amended: `remove-token(persistentId)` is honored exactly when the
issuing connection is registered in `displayModeUsers` and the payload
carries a truthy persistent id.  When honored it deletes any Resurrection
Cache entry for that id and the first live Presence sharing it (notifying
that connection when it is still a live socket) and broadcasts
`token-removed` to everyone; otherwise the registries are untouched and
nothing is emitted. -/
theorem remove_token_display_gate (sid : String) (w : UserWorld)
    (cs : List String) (pid : Option String) :
    ((mhas w.displayModeUsers sid = false ∨ jsOrNull pid = none) →
       removeToken sid w cs pid = (w, [])) ∧
    (∀ p, jsOrNull pid = some p → mhas w.displayModeUsers sid = true →
       mget (removeToken sid w cs pid).1.disconnectedUsers p = none ∧
       (removeToken sid w cs pid).1.displayModeUsers = w.displayModeUsers ∧
       Emit.mk Scope.toAll (Event.tokenRemoved p) ∈ (removeToken sid w cs pid).2 ∧
       (∀ hit, findByPersistentId w.users p = some hit →
          (removeToken sid w cs pid).1.users = mdel w.users hit.1 ∧
          (hit.1 ∈ cs →
            Emit.mk (Scope.toSocket hit.1) (Event.tokenRemoved p) ∈
              (removeToken sid w cs pid).2)) ∧
       (findByPersistentId w.users p = none →
          (removeToken sid w cs pid).1.users = w.users)) := by
  have hdisc1 : ∀ p : String,
      mget (if mhas w.disconnectedUsers p then mdel w.disconnectedUsers p
            else w.disconnectedUsers) p = none := by
    intro p
    by_cases hd : mhas w.disconnectedUsers p
    · simp [hd, mget_mdel_self]
    · simp only [hd, if_false, Bool.false_eq_true]
      simp only [mhas, Option.isSome] at hd
      cases hg : mget w.disconnectedUsers p with
      | none => rfl
      | some d => rw [hg] at hd; simp at hd
  constructor
  · intro h
    cases hjs : jsOrNull pid with
    | none => simp [removeToken, hjs]
    | some p =>
        rcases h with h | h
        · simp [removeToken, hjs, h]
        · rw [hjs] at h; cases h
  · intro p hp hd
    cases hfind : findByPersistentId w.users p with
    | some hit =>
        refine ⟨?_, ?_, ?_, ?_, ?_⟩
        · simp only [removeToken, hp, hd, if_true, hfind]
          exact hdisc1 p
        · simp [removeToken, hp, hd, hfind]
        · by_cases hcs : hit.1 ∈ cs <;> simp [removeToken, hp, hd, hfind, hcs]
        · intro hit' hfind'
          obtain rfl : hit = hit' := by injection hfind'
          constructor
          · simp [removeToken, hp, hd, hfind]
          · intro hcs
            simp [removeToken, hp, hd, hfind, hcs]
        · intro hnone
          simp at hnone
    | none =>
        refine ⟨?_, ?_, ?_, ?_, ?_⟩
        · simp only [removeToken, hp, hd, if_true, hfind]
          exact hdisc1 p
        · simp [removeToken, hp, hd, hfind]
        · simp [removeToken, hp, hd, hfind]
        · intro hit' hfind'
          simp at hfind'
        · intro _
          simp [removeToken, hp, hd, hfind]

/-- Witness for the amended C4, at the display/participant world. -/
theorem remove_token_display_gate_witness :
    (mhas worldB.displayModeUsers "G" = false ∨ jsOrNull (some "P") = none →
       removeToken "G" worldB ["D", "G"] (some "P") = (worldB, [])) ∧
    (∀ p, jsOrNull (some "P") = some p → mhas worldB.displayModeUsers "G" = true →
       mget (removeToken "G" worldB ["D", "G"] (some "P")).1.disconnectedUsers p = none ∧
       (removeToken "G" worldB ["D", "G"] (some "P")).1.displayModeUsers =
         worldB.displayModeUsers ∧
       Emit.mk Scope.toAll (Event.tokenRemoved p) ∈
         (removeToken "G" worldB ["D", "G"] (some "P")).2 ∧
       (∀ hit, findByPersistentId worldB.users p = some hit →
          (removeToken "G" worldB ["D", "G"] (some "P")).1.users = mdel worldB.users hit.1 ∧
          (hit.1 ∈ ["D", "G"] →
            Emit.mk (Scope.toSocket hit.1) (Event.tokenRemoved p) ∈
              (removeToken "G" worldB ["D", "G"] (some "P")).2)) ∧
       (findByPersistentId worldB.users p = none →
          (removeToken "G" worldB ["D", "G"] (some "P")).1.users = worldB.users)) :=
  remove_token_display_gate "G" worldB ["D", "G"] (some "P")

/-! ## C9: suppressed presences are invisible — and receive nothing -/

/-- A nonempty legacy covers map, so an all-covers snapshot would be due. -/
def coverC : Cover := ⟨"c1", 10, 10, 20, 20, "#808080"⟩

/-- Fixture list for the legacy covers map. -/
def coversC : List (String × Cover) := [("c1", coverC)]

/-- An identify payload with `suppressPresence = true` and explicit
mutation authority. -/
def suppressData : IdentifyData := ⟨some "PS", false, true, some true⟩

/-- C9 counterexample: a `suppressPresence` identify emits nothing at all —
in particular the socket receives neither its `user-connected` info nor the
`all-users` list nor the `all-covers` list (though the covers map is
nonempty), refuting the claim that suppressed presences still receive the
scene snapshots.  (They are indeed not added to the registry.) -/
theorem suppressed_gets_no_snapshots_counterexample :
    coversC.length > 0 ∧
    (initializeUser "S" ConnState.fresh worldA coversC suppressData "#84cc16").2.2 = [] ∧
    (initializeUser "S" ConnState.fresh worldA coversC suppressData "#84cc16").2.1.users =
      worldA.users ∧
    (initializeUser "S" ConnState.fresh worldA coversC suppressData "#84cc16").2.1.displayModeUsers =
      worldA.displayModeUsers := by
  decide

/-- C9 amended: a Presence identified with `suppressPresence = true` is
never added to the active registry nor the display registry, triggers no
emission whatsoever (so no join/reconnect broadcast, but also none of the
user-connected / all-users / all-covers snapshots), produces no
Resurrection Cache entry on a later disconnect (which also emits nothing),
and its closure Presence carries the requested mutation authority, so the
authorization gate treats its commands by that authority. -/
theorem suppressed_presence_semantics (sid : String) (conn : ConnState)
    (w : UserWorld) (covers : List (String × Cover)) (data : IdentifyData)
    (rc : String) (now : ℕ)
    (hconn : conn.identificationReceived = false)
    (hsup : data.suppressPresence = true)
    (husers : mget w.users sid = none)
    (hdisp : mget w.displayModeUsers sid = none) :
    (initializeUser sid conn w covers data rc).2.1.users = w.users ∧
    (initializeUser sid conn w covers data rc).2.1.displayModeUsers =
      w.displayModeUsers ∧
    (initializeUser sid conn w covers data rc).2.2 = [] ∧
    disconnectHandler sid (initializeUser sid conn w covers data rc).2.1 now =
      ((initializeUser sid conn w covers data rc).2.1, []) ∧
    allowMutation (initializeUser sid conn w covers data rc).1.userData =
      data.allowBattlemapMutations.getD data.isDisplay := by
  have h1 : (initializeUser sid conn w covers data rc).2.1.users = w.users := by
    simp [initializeUser, hconn, hsup]
  have h2 : (initializeUser sid conn w covers data rc).2.1.displayModeUsers =
      w.displayModeUsers := by
    simp [initializeUser, hconn, hsup]
  refine ⟨h1, h2, ?_, ?_, ?_⟩
  · simp [initializeUser, hconn, hsup]
  · rw [disconnectHandler, h1, h2, husers, hdisp]
  · simp [initializeUser, hconn, hsup, allowMutation]

/-- Witness for the amended C9 at the concrete fixture. -/
theorem suppressed_presence_semantics_witness :
    (initializeUser "S" ConnState.fresh worldA coversC suppressData "#84cc16").2.1.users =
      worldA.users ∧
    (initializeUser "S" ConnState.fresh worldA coversC suppressData "#84cc16").2.1.displayModeUsers =
      worldA.displayModeUsers ∧
    (initializeUser "S" ConnState.fresh worldA coversC suppressData "#84cc16").2.2 = [] ∧
    disconnectHandler "S" (initializeUser "S" ConnState.fresh worldA coversC suppressData "#84cc16").2.1 7 =
      ((initializeUser "S" ConnState.fresh worldA coversC suppressData "#84cc16").2.1, []) ∧
    allowMutation (initializeUser "S" ConnState.fresh worldA coversC suppressData "#84cc16").1.userData =
      suppressData.allowBattlemapMutations.getD suppressData.isDisplay :=
  suppressed_presence_semantics "S" ConnState.fresh worldA coversC suppressData
    "#84cc16" 7 (by decide) (by decide) (by decide) (by decide)

/-! ## C1: resurrection restores color and position — but not imageSrc -/

/-- An identify payload carrying persistent id `"P"`, participant role. -/
def identifyP : IdentifyData := ⟨some "P", false, false, none⟩

/-- Step 1: socket `"s1"` identifies with persistent id `"P"`. -/
def c1Step1 : ConnState × UserWorld × List Emit :=
  initializeUser "s1" ConnState.fresh UserWorld.empty [] identifyP "#ef4444"

/-- Step 2: the token of `"s1"` gets an image. -/
def c1Step2 : UserWorld × List Emit :=
  tokenImageUpdate c1Step1.2.1 "s1" (some "img")

/-- Step 3: socket `"s1"` disconnects. -/
def c1Step3 : UserWorld × List Emit :=
  disconnectHandler "s1" c1Step2.1 77

/-- Step 4: socket `"s2"` identifies with the same persistent id `"P"`. -/
def c1Step4 : ConnState × UserWorld × List Emit :=
  initializeUser "s2" ConnState.fresh c1Step3.1 [] identifyP "#3b82f6"

/-- C1 counterexample: the pre-disconnect Presence has `imageSrc = "img"`
and the Resurrection Cache entry for `"P"` retains it, yet the resurrected
Presence comes back with `imageSrc = null` (while color is restored):
`initializeUser` copies only `color` and `position` out of the cache entry,
so the claimed equality of `imageSrc` (and the `size` field, which the
server does not track at all) fails. -/
theorem resurrection_drops_image_counterexample :
    (mget c1Step2.1.users "s1").map UserData.imageSrc = some (some "img") ∧
    (mget c1Step3.1.disconnectedUsers "P").map DiscUser.imageSrc = some (some "img") ∧
    (mget c1Step4.2.1.users "s2").map UserData.imageSrc = some none ∧
    (mget c1Step4.2.1.users "s2").map UserData.color = some "#ef4444" := by
  decide

/-- C1 amended: when a non-suppressed participant Presence `u` (live under
socket `sid1`, persistent id `p`) disconnects and a fresh connection `sid2`
identifies with the same `p` before any removal, the resurrected Presence
inherits the pre-disconnect `color` and `position` while its `imageSrc` is
reset to null (the server tracks no `size`), the Resurrection Cache entry
for `p` is consumed, and the other connections receive a `user-reconnected`
broadcast and no `user-joined` broadcast. -/
theorem resurrection_restores_color_position (w : UserWorld)
    (covers : List (String × Cover)) (sid1 sid2 p rc : String) (u : UserData)
    (data : IdentifyData) (now : ℕ)
    (hu : mget w.users sid1 = some u)
    (hpid : u.persistentUserId = p) (hp : p ≠ "") (hc : u.color ≠ "")
    (hd1 : data.persistentUserId = some p) (hd2 : data.isDisplay = false)
    (hd3 : data.suppressPresence = false) :
    ∃ ud : UserData,
      mget (initializeUser sid2 ConnState.fresh (disconnectHandler sid1 w now).1
              covers data rc).2.1.users sid2 = some ud ∧
      ud.color = u.color ∧ ud.position = u.position ∧ ud.imageSrc = none ∧
      mget (initializeUser sid2 ConnState.fresh (disconnectHandler sid1 w now).1
              covers data rc).2.1.disconnectedUsers p = none ∧
      Emit.mk (Scope.toOthers sid2)
          (Event.userReconnected ⟨sid2, p, u.color, u.position, none⟩) ∈
        (initializeUser sid2 ConnState.fresh (disconnectHandler sid1 w now).1
           covers data rc).2.2 ∧
      (∀ s q, Emit.mk s (Event.userJoined q) ∉
        (initializeUser sid2 ConnState.fresh (disconnectHandler sid1 w now).1
           covers data rc).2.2) := by
  have hW3 : (disconnectHandler sid1 w now).1 =
      ⟨mdel w.users sid1,
       mset w.disconnectedUsers p
         ⟨p, p, u.color, u.position, jsOrNull u.imageSrc, now⟩,
       w.displayModeUsers⟩ := by
    simp [disconnectHandler, hu, hpid, hp]
  have hjs : jsOrNull data.persistentUserId = some p := by
    simp [jsOrNull, hd1, hp]
  have hrest : mget (disconnectHandler sid1 w now).1.disconnectedUsers p =
      some ⟨p, p, u.color, u.position, jsOrNull u.imageSrc, now⟩ := by
    rw [hW3]
    exact mget_mset_self _ _ _
  refine ⟨{ id := sid2, persistentUserId := p, color := u.color,
            position := u.position, imageSrc := none, isDisplay := false,
            allowBattlemapMutations := data.allowBattlemapMutations.getD false,
            suppressPresence := false }, ?_, rfl, rfl, rfl, ?_, ?_, ?_⟩
  · simp [initializeUser, ConnState.fresh, hjs, hrest, hd2, hd3, hc, mget_mset_self]
  · simp [initializeUser, ConnState.fresh, hjs, hrest, hd2, hd3, hc]
    rw [hW3]
    simp [mget_mdel_self]
  · simp [initializeUser, ConnState.fresh, hjs, hrest, hd2, hd3, hc, jsOrNull_none]
  · intro s q
    simp [initializeUser, ConnState.fresh, hjs, hrest, hd2, hd3, hc]

/-- The pre-disconnect Presence of the C1 fixture chain. -/
def c1User : UserData :=
  { id := "s1", persistentUserId := "P", color := "#ef4444",
    position := ⟨50, 50⟩, imageSrc := some "img", isDisplay := false,
    allowBattlemapMutations := false, suppressPresence := false }

/-- Witness for the amended C1 at the concrete fixture chain. -/
theorem resurrection_restores_color_position_witness :
    ∃ ud : UserData,
      mget (initializeUser "s2" ConnState.fresh (disconnectHandler "s1" c1Step2.1 77).1
              [] identifyP "#3b82f6").2.1.users "s2" = some ud ∧
      ud.color = c1User.color ∧ ud.position = c1User.position ∧ ud.imageSrc = none ∧
      mget (initializeUser "s2" ConnState.fresh (disconnectHandler "s1" c1Step2.1 77).1
              [] identifyP "#3b82f6").2.1.disconnectedUsers "P" = none ∧
      Emit.mk (Scope.toOthers "s2")
          (Event.userReconnected ⟨"s2", "P", c1User.color, c1User.position, none⟩) ∈
        (initializeUser "s2" ConnState.fresh (disconnectHandler "s1" c1Step2.1 77).1
           [] identifyP "#3b82f6").2.2 ∧
      (∀ s q, Emit.mk s (Event.userJoined q) ∉
        (initializeUser "s2" ConnState.fresh (disconnectHandler "s1" c1Step2.1 77).1
           [] identifyP "#3b82f6").2.2) :=
  resurrection_restores_color_position c1Step2.1 [] "s1" "s2" "P" "#3b82f6"
    c1User identifyP 77 (by decide) (by decide) (by decide) (by decide)
    (by decide) (by decide) (by decide)

/-! ## C8: idempotent set-active -/

/-- Number of `battlemap:active` broadcasts in an emission list. -/
def countBmActive (es : List Emit) : ℕ :=
  (es.filter (fun e =>
    match e.event with
    | Event.bmActive _ => true
    | _ => false)).length

/-- C8: for an authorized issuer, `battlemap:set-active` with an existing
battlemap id is acknowledged `{ok:true}`; when that id is already active the
command changes nothing and emits nothing, and two consecutive calls with
the same id produce at most one `battlemap:active` broadcast; a missing,
non-string, empty, or unknown id is acknowledged
`{ok:false, error:"battlemap-not-found"}` and changes nothing. -/
theorem set_active_idempotent (conn : Option UserData) (st : BmState)
    (s : String) (hauth : allowMutation conn = true) :
    (s ≠ "" → mhas st.maps s = true →
       (bmSetActive conn st (some (JsVal.val s))).2.2 = Ack.success none ∧
       (st.activeBattlemapId = some s →
          bmSetActive conn st (some (JsVal.val s)) = (st, [], Ack.success none)) ∧
       countBmActive ((bmSetActive conn st (some (JsVal.val s))).2.1 ++
         (bmSetActive conn (bmSetActive conn st (some (JsVal.val s))).1
            (some (JsVal.val s))).2.1) ≤ 1) ∧
    (∀ bid, (match bid with
             | some (JsVal.val t) => t = "" ∨ mhas st.maps t = false
             | _ => True) →
       bmSetActive conn st bid = (st, [], Ack.failure "battlemap-not-found")) := by
  constructor
  · intro hs hm
    by_cases hact : st.activeBattlemapId = some s
    · have h1 : bmSetActive conn st (some (JsVal.val s)) = (st, [], Ack.success none) := by
        simp [bmSetActive, hauth, hs, hm, hact]
      refine ⟨by rw [h1], fun _ => h1, ?_⟩
      rw [h1]
      simp [h1, countBmActive]
    · have h1 : bmSetActive conn st (some (JsVal.val s)) =
          ({ st with activeBattlemapId := some s },
           [Emit.mk Scope.toAll (Event.bmActive (some s))], Ack.success none) := by
        simp [bmSetActive, hauth, hs, hm, hact]
      have h2 : bmSetActive conn { st with activeBattlemapId := some s }
          (some (JsVal.val s)) =
          ({ st with activeBattlemapId := some s }, [], Ack.success none) := by
        simp [bmSetActive, hauth, hs, hm]
      refine ⟨by rw [h1], fun hcon => absurd hcon hact, ?_⟩
      rw [h1]
      simp [h2, countBmActive]
  · intro bid hbid
    cases bid with
    | none => simp [bmSetActive, hauth]
    | some v =>
        cases v with
        | junk => simp [bmSetActive, hauth]
        | val t =>
            rcases hbid with h | h
            · simp [bmSetActive, hauth, h]
            · simp [bmSetActive, hauth, h]

/-- Witness for C8 at the one-battlemap fixture with an authorized
Presence. -/
theorem set_active_idempotent_witness :
    (("m1" : String) ≠ "" → mhas bmOne.maps "m1" = true →
       (bmSetActive (some gmUser) bmOne (some (JsVal.val "m1"))).2.2 = Ack.success none ∧
       (bmOne.activeBattlemapId = some "m1" →
          bmSetActive (some gmUser) bmOne (some (JsVal.val "m1")) =
            (bmOne, [], Ack.success none)) ∧
       countBmActive ((bmSetActive (some gmUser) bmOne (some (JsVal.val "m1"))).2.1 ++
         (bmSetActive (some gmUser) (bmSetActive (some gmUser) bmOne (some (JsVal.val "m1"))).1
            (some (JsVal.val "m1"))).2.1) ≤ 1) ∧
    (∀ bid, (match bid with
             | some (JsVal.val t) => t = "" ∨ mhas bmOne.maps t = false
             | _ => True) →
       bmSetActive (some gmUser) bmOne bid = (bmOne, [], Ack.failure "battlemap-not-found")) :=
  set_active_idempotent (some gmUser) bmOne "m1" (by decide)

/-! ## C2: the cover clamping invariant -/

/-- The invariant claimed for every cover at rest. -/
def coverOk (c : Cover) : Prop :=
  0 ≤ c.x ∧ c.x + c.width ≤ 100 ∧ 0 ≤ c.y ∧ c.y + c.height ≤ 100 ∧
  0 ≤ c.width ∧ c.width ≤ 100 ∧ 0 ≤ c.height ∧ c.height ≤ 100

instance (c : Cover) : Decidable (coverOk c) := by
  unfold coverOk; infer_instance

/-- All covers of a legacy covers map are in bounds. -/
def CoversOk (m : List (String × Cover)) : Prop := ∀ p ∈ m, coverOk p.2

/-- All covers of every battlemap in a registry are in bounds. -/
def MapsOk (m : List (String × Battlemap)) : Prop :=
  ∀ q ∈ m, ∀ p ∈ q.2.covers, coverOk p.2

/-- Every cover held anywhere in the scene state is in bounds. -/
def sceneCoversOk (s : SceneState) : Prop := CoversOk s.covers ∧ MapsOk s.bm.maps

theorem clampValue_mem (v lo hi : ℚ) (h : lo ≤ hi) :
    lo ≤ clampValue v lo hi ∧ clampValue v lo hi ≤ hi :=
  ⟨le_min (le_max_right v lo) h, min_le_right _ _⟩

theorem sanitizeCover_ok (id : String) (input : CoverFields) :
    coverOk (sanitizeCover id input) := by
  have h100 : (0:ℚ) ≤ 100 := by norm_num
  obtain ⟨hw0, hw1⟩ := clampValue_mem (numOr input.width 0) 0 100 h100
  obtain ⟨hh0, hh1⟩ := clampValue_mem (numOr input.height 0) 0 100 h100
  obtain ⟨hx0, hx1⟩ := clampValue_mem (numOr input.x 0) 0
    (100 - clampValue (numOr input.width 0) 0 100) (by linarith)
  obtain ⟨hy0, hy1⟩ := clampValue_mem (numOr input.y 0) 0
    (100 - clampValue (numOr input.height 0) 0 100) (by linarith)
  exact ⟨hx0, by simp only [sanitizeCover]; linarith,
         hy0, by simp only [sanitizeCover]; linarith,
         hw0, hw1, hh0, hh1⟩

theorem CoversOk_mset {m : List (String × Cover)} {k : String} {v : Cover}
    (h : CoversOk m) (hv : coverOk v) : CoversOk (mset m k v) := by
  intro p hp
  rcases mem_mset m k v p hp with h' | h'
  · rw [h']; exact hv
  · exact h p h'

theorem CoversOk_mdel {m : List (String × Cover)} {k : String}
    (h : CoversOk m) : CoversOk (mdel m k) :=
  fun p hp => h p (mem_mdel m k p hp)

theorem MapsOk_mset {m : List (String × Battlemap)} {k : String} {b : Battlemap}
    (h : MapsOk m) (hb : ∀ p ∈ b.covers, coverOk p.2) : MapsOk (mset m k b) := by
  intro q hq
  rcases mem_mset m k b q hq with h' | h'
  · rw [h']; exact hb
  · exact h q h'

theorem MapsOk_mdel {m : List (String × Battlemap)} {k : String}
    (h : MapsOk m) : MapsOk (mdel m k) :=
  fun q hq => h q (mem_mdel m k q hq)

theorem lookupBattlemap_ok_mem (st : BmState) (bid : Option (JsVal String))
    (b : Battlemap) (h : lookupBattlemap st bid = Except.ok b) :
    ∃ k, (k, b) ∈ st.maps := by
  cases bid with
  | none => simp [lookupBattlemap] at h
  | some v =>
      cases v with
      | junk => simp [lookupBattlemap] at h
      | val s =>
          simp only [lookupBattlemap] at h
          by_cases hs : s = ""
          · rw [if_pos hs] at h; cases h
          · rw [if_neg hs] at h
            cases hg : mget st.maps s with
            | none => rw [hg] at h; cases h
            | some b' =>
                rw [hg] at h
                injection h with h
                exact ⟨s, h ▸ mem_of_mget_eq_some st.maps s b' hg⟩

theorem getD_clamp_bound (o : Option (JsVal ℚ)) (w0 : ℚ)
    (h0 : 0 ≤ w0 ∧ w0 ≤ 100) :
    0 ≤ (match o with
         | some (JsVal.val q) => some (clampValue q 0 100)
         | _ => none).getD w0 ∧
    (match o with
     | some (JsVal.val q) => some (clampValue q 0 100)
     | _ => none).getD w0 ≤ 100 := by
  cases o with
  | none => simpa using h0
  | some v =>
      cases v with
      | junk => simpa using h0
      | val q =>
          simpa using clampValue_mem q 0 100 (by norm_num)

theorem bmCreate_MapsOk (conn : Option UserData) (st : BmState)
    (name mapPath : Option (JsVal String)) (genId : String)
    (h : MapsOk st.maps) : MapsOk (bmCreate conn st name mapPath genId).1.maps := by
  unfold bmCreate
  split
  · exact h
  · dsimp only
    split
    · exact MapsOk_mset h (by intro p hp; simp at hp)
    · exact MapsOk_mset h (by intro p hp; simp at hp)

theorem bmSetActive_MapsOk (conn : Option UserData) (st : BmState)
    (battlemapId : Option (JsVal String)) (h : MapsOk st.maps) :
    MapsOk (bmSetActive conn st battlemapId).1.maps := by
  unfold bmSetActive
  split
  · exact h
  · split
    · split
      · exact h
      · split
        · exact h
        · exact h
    · exact h

theorem bmRename_MapsOk (conn : Option UserData) (st : BmState)
    (battlemapId name : Option (JsVal String)) (h : MapsOk st.maps) :
    MapsOk (bmRename conn st battlemapId name).1.maps := by
  unfold bmRename
  split
  · exact h
  · split
    · exact h
    · rename_i b heq
      obtain ⟨k, hk⟩ := lookupBattlemap_ok_mem st battlemapId b heq
      exact MapsOk_mset h (h (k, b) hk)

theorem bmUpdateMapPath_MapsOk (conn : Option UserData) (st : BmState)
    (battlemapId mapPath : Option (JsVal String)) (h : MapsOk st.maps) :
    MapsOk (bmUpdateMapPath conn st battlemapId mapPath).1.maps := by
  unfold bmUpdateMapPath
  split
  · exact h
  · split
    · exact h
    · rename_i b heq
      obtain ⟨k, hk⟩ := lookupBattlemap_ok_mem st battlemapId b heq
      exact MapsOk_mset h (h (k, b) hk)

theorem bmUpdateSettings_MapsOk (conn : Option UserData) (st : BmState)
    (battlemapId : Option (JsVal String)) (a b c : Option ℚ)
    (h : MapsOk st.maps) :
    MapsOk (bmUpdateSettings conn st battlemapId a b c).1.maps := by
  unfold bmUpdateSettings
  split
  · exact h
  · split
    · exact h
    · rename_i bm heq
      obtain ⟨k, hk⟩ := lookupBattlemap_ok_mem st battlemapId bm heq
      exact MapsOk_mset h (h (k, bm) hk)

theorem bmUpdateGridData_MapsOk (conn : Option UserData) (st : BmState)
    (battlemapId : Option (JsVal String)) (gd : Option GridDataInput)
    (h : MapsOk st.maps) :
    MapsOk (bmUpdateGridData conn st battlemapId gd).1.maps := by
  unfold bmUpdateGridData
  split
  · exact h
  · split
    · exact h
    · rename_i b heq
      obtain ⟨k, hk⟩ := lookupBattlemap_ok_mem st battlemapId b heq
      exact MapsOk_mset h (h (k, b) hk)

theorem ensureActiveBattlemap_maps (st : BmState) :
    (ensureActiveBattlemap st).maps = st.maps := by
  unfold ensureActiveBattlemap
  split
  · split <;> rfl
  · rfl

theorem ensureActiveBattlemap_order (st : BmState) :
    (ensureActiveBattlemap st).order = st.order := by
  unfold ensureActiveBattlemap
  split
  · split <;> rfl
  · rfl

theorem bmDelete_MapsOk (conn : Option UserData) (st : BmState)
    (battlemapId : Option (JsVal String)) (h : MapsOk st.maps) :
    MapsOk (bmDelete conn st battlemapId).1.maps := by
  unfold bmDelete
  split
  · exact h
  · split
    · exact h
    · dsimp only
      split
      · dsimp only
        rw [ensureActiveBattlemap_maps]
        exact MapsOk_mdel h
      · exact MapsOk_mdel h

theorem bmAddCover_MapsOk (conn : Option UserData) (st : BmState)
    (battlemapId : Option (JsVal String)) (cover : CoverInput) (genId : String)
    (h : MapsOk st.maps) :
    MapsOk (bmAddCover conn st battlemapId cover genId).1.maps := by
  unfold bmAddCover
  split
  · exact h
  · split
    · exact h
    · rename_i b heq
      obtain ⟨k, hk⟩ := lookupBattlemap_ok_mem st battlemapId b heq
      refine MapsOk_mset h ?_
      intro p hp
      exact CoversOk_mset (h (k, b) hk) (sanitizeCover_ok _ _) p hp

theorem bmUpdateCover_MapsOk (conn : Option UserData) (st : BmState)
    (battlemapId coverId : Option (JsVal String)) (updates : CoverFields)
    (h : MapsOk st.maps) :
    MapsOk (bmUpdateCover conn st battlemapId coverId updates).1.maps := by
  unfold bmUpdateCover
  split
  · exact h
  · split
    · exact h
    · rename_i b heq
      obtain ⟨k, hk⟩ := lookupBattlemap_ok_mem st battlemapId b heq
      cases coverId with
      | none => exact h
      | some v =>
          cases v with
          | junk => exact h
          | val cid =>
              dsimp only
              split
              · refine MapsOk_mset h ?_
                intro p hp
                exact CoversOk_mset (h (k, b) hk) (sanitizeCover_ok _ _) p hp
              · exact h

theorem bmRemoveCover_MapsOk (conn : Option UserData) (st : BmState)
    (battlemapId coverId : Option (JsVal String)) (h : MapsOk st.maps) :
    MapsOk (bmRemoveCover conn st battlemapId coverId).1.maps := by
  unfold bmRemoveCover
  split
  · exact h
  · split
    · exact h
    · rename_i b heq
      obtain ⟨k, hk⟩ := lookupBattlemap_ok_mem st battlemapId b heq
      split
      · split
        · exact h
        · exact MapsOk_mset h (by
            intro p hp
            exact CoversOk_mdel (h (k, b) hk) p hp)
      · exact h

theorem legacy_nextCover_ok (cid ccolor : String) (W H vx vy : ℚ)
    (hW : 0 ≤ W ∧ W ≤ 100) (hH : 0 ≤ H ∧ H ≤ 100) :
    coverOk { id := cid, x := clampValue vx 0 (100 - W),
              y := clampValue vy 0 (100 - H), width := W, height := H,
              color := ccolor } := by
  obtain ⟨hW0, hW1⟩ := hW
  obtain ⟨hH0, hH1⟩ := hH
  obtain ⟨hx0, hx1⟩ := clampValue_mem vx 0 (100 - W) (by linarith)
  obtain ⟨hy0, hy1⟩ := clampValue_mem vy 0 (100 - H) (by linarith)
  exact ⟨hx0, by dsimp only; linarith, hy0, by dsimp only; linarith,
         hW0, hW1, hH0, hH1⟩

theorem addCoverHandler_CoversOk (covers : List (String × Cover))
    (data : Option LegacyCoverPayload) (genId : String) (h : CoversOk covers) :
    CoversOk (addCoverHandler covers data genId).1 := by
  unfold addCoverHandler
  split
  · exact h
  · split
    · rename_i x y width height hex hey hew heh
      dsimp only
      refine CoversOk_mset h ?_
      exact legacy_nextCover_ok _ _ _ _ _ _
        (clampValue_mem width 0 100 (by norm_num))
        (clampValue_mem height 0 100 (by norm_num))
    · exact h

theorem updateCoverHandler_CoversOk (covers : List (String × Cover))
    (data : Option LegacyCoverPayload) (h : CoversOk covers) :
    CoversOk (updateCoverHandler covers data).1 := by
  unfold updateCoverHandler
  split
  · exact h
  · rename_i d
    split
    · rename_i id hid
      split
      · exact h
      · rename_i cover hcov
        obtain ⟨cx0, cx1, cy0, cy1, cw0, cw1, ch0, ch1⟩ :=
          h (id, cover) (mem_of_mget_eq_some covers id cover hcov)
        dsimp only
        refine CoversOk_mset h ?_
        exact legacy_nextCover_ok _ _ _ _ _ _
          (getD_clamp_bound d.width cover.width ⟨cw0, cw1⟩)
          (getD_clamp_bound d.height cover.height ⟨ch0, ch1⟩)
    · exact h

theorem removeCoverHandler_CoversOk (covers : List (String × Cover))
    (id : Option (JsVal String)) (h : CoversOk covers) :
    CoversOk (removeCoverHandler covers id).1 := by
  unfold removeCoverHandler
  split
  · split
    · exact CoversOk_mdel h
    · exact h
  · exact h

theorem foldl_rows_MapsOk (rows : List BmRow) (acc : List (String × Battlemap))
    (hacc : MapsOk acc) :
    MapsOk (rows.foldl (fun a row => mset a row.id (rowToBattlemap row)) acc) := by
  induction rows generalizing acc with
  | nil => exact hacc
  | cons row rest ih =>
      exact ih _ (MapsOk_mset hacc (by intro p hp; simp [rowToBattlemap] at hp))

theorem foldl_coverRows_MapsOk (crs : List CoverRow)
    (maps : List (String × Battlemap)) (h : MapsOk maps) :
    MapsOk (crs.foldl applyCoverRow maps) := by
  induction crs generalizing maps with
  | nil => exact h
  | cons c rest ih =>
      refine ih _ ?_
      unfold applyCoverRow
      split
      · rename_i parent hparent
        refine MapsOk_mset h ?_
        intro p hp
        exact CoversOk_mset
          (h (c.battlemapId, parent)
            (mem_of_mget_eq_some maps c.battlemapId parent hparent))
          (sanitizeCover_ok _ _) p hp
      · exact h

theorem loadBattlemapState_MapsOk (rows : List BmRow) (coverRows : List CoverRow)
    (seedId : String) : MapsOk (loadBattlemapState rows coverRows seedId).maps := by
  unfold loadBattlemapState
  dsimp only
  exact foldl_coverRows_MapsOk _ _
    (foldl_rows_MapsOk _ [] (by intro q hq; simp at hq))

/-- One scene operation preserves the cover invariant everywhere. -/
theorem applySceneOp_coversOk (s : SceneState) (op : SceneOp)
    (h : sceneCoversOk s) : sceneCoversOk (applySceneOp s op) := by
  obtain ⟨hleg, hmaps⟩ := h
  cases op with
  | boot rows coverRows seedId =>
      exact ⟨hleg, loadBattlemapState_MapsOk rows coverRows seedId⟩
  | create conn name mapPath genId =>
      exact ⟨hleg, bmCreate_MapsOk conn s.bm name mapPath genId hmaps⟩
  | setActive conn battlemapId =>
      exact ⟨hleg, bmSetActive_MapsOk conn s.bm battlemapId hmaps⟩
  | rename conn battlemapId name =>
      exact ⟨hleg, bmRename_MapsOk conn s.bm battlemapId name hmaps⟩
  | updateMapPath conn battlemapId mapPath =>
      exact ⟨hleg, bmUpdateMapPath_MapsOk conn s.bm battlemapId mapPath hmaps⟩
  | updateSettings conn battlemapId a b c =>
      exact ⟨hleg, bmUpdateSettings_MapsOk conn s.bm battlemapId a b c hmaps⟩
  | updateGridData conn battlemapId gd =>
      exact ⟨hleg, bmUpdateGridData_MapsOk conn s.bm battlemapId gd hmaps⟩
  | deleteMap conn battlemapId =>
      exact ⟨hleg, bmDelete_MapsOk conn s.bm battlemapId hmaps⟩
  | addCoverB conn battlemapId cover genId =>
      exact ⟨hleg, bmAddCover_MapsOk conn s.bm battlemapId cover genId hmaps⟩
  | updateCoverB conn battlemapId coverId updates =>
      exact ⟨hleg, bmUpdateCover_MapsOk conn s.bm battlemapId coverId updates hmaps⟩
  | removeCoverB conn battlemapId coverId =>
      exact ⟨hleg, bmRemoveCover_MapsOk conn s.bm battlemapId coverId hmaps⟩
  | addCoverL data genId =>
      exact ⟨addCoverHandler_CoversOk s.covers data genId hleg, hmaps⟩
  | updateCoverL data =>
      exact ⟨updateCoverHandler_CoversOk s.covers data hleg, hmaps⟩
  | removeCoverL id =>
      exact ⟨removeCoverHandler_CoversOk s.covers id hleg, hmaps⟩

/-- C2: after any sequence of scene operations from server start — boot
load, the legacy add-cover / update-cover, and the battlemap add-cover /
update-cover (together with every other battlemap operation) — every cover
held anywhere in the server state satisfies `0 ≤ x`, `x + width ≤ 100`,
`0 ≤ y`, `y + height ≤ 100`, and `0 ≤ width, height ≤ 100`, no matter what
numeric values the clients supplied.  (Numbers are modelled as rationals.) -/
theorem cover_clamping_invariant (ops : List SceneOp) :
    sceneCoversOk (runScene ops) := by
  have hfold : ∀ (l : List SceneOp) (s : SceneState),
      sceneCoversOk s → sceneCoversOk (l.foldl applySceneOp s) := by
    intro l
    induction l with
    | nil => intro s hs; exact hs
    | cons op rest ih =>
        intro s hs
        exact ih _ (applySceneOp_coversOk s op hs)
  refine hfold ops SceneState.empty ⟨?_, ?_⟩
  · intro p hp; simp [SceneState.empty] at hp
  · intro q hq; simp [SceneState.empty, BmState.empty] at hq

/-! ## C7: the active-battlemap invariant -/

/-- Registry well-formedness: every ordered id has a map entry, every map
entry's key appears in the order and matches its battlemap's own id. -/
def bmWf (st : BmState) : Prop :=
  (∀ id ∈ st.order, mhas st.maps id = true) ∧
  (∀ q ∈ st.maps, q.1 ∈ st.order) ∧
  (∀ q ∈ st.maps, q.2.id = q.1)

/-- The claimed invariant on the active id: it references an existing
battlemap, or is null and then no battlemap exists. -/
def activeOk (st : BmState) : Prop :=
  match st.activeBattlemapId with
  | some id => mhas st.maps id = true
  | none => st.order = []

/-- Full registry invariant. -/
def bmInvariant (st : BmState) : Prop := bmWf st ∧ activeOk st

instance (st : BmState) : Decidable (bmWf st) := by
  unfold bmWf; infer_instance

instance (st : BmState) : Decidable (activeOk st) := by
  unfold activeOk
  cases st.activeBattlemapId <;> infer_instance

instance (st : BmState) : Decidable (bmInvariant st) := by
  unfold bmInvariant; infer_instance

theorem getDefault_mhas (st : BmState) (d : String)
    (h : getDefaultBattlemapId st = some d) : mhas st.maps d = true := by
  unfold getDefaultBattlemapId at h
  have hp := List.find?_some h
  cases hg : mget st.maps d with
  | none => rw [hg] at hp; simp at hp
  | some b => simp [mhas, hg]

theorem fallbackActive_ok (st : BmState) (hwf : bmWf st) :
    activeOk { st with activeBattlemapId := fallbackActive st } := by
  unfold fallbackActive
  cases hd : getDefaultBattlemapId st with
  | some d =>
      show mhas st.maps d = true
      exact getDefault_mhas st d hd
  | none =>
      cases horder : st.order with
      | nil => simp [activeOk, horder]
      | cons a rest =>
          simp only [activeOk, horder, List.head?]
          exact hwf.1 a (horder ▸ List.mem_cons_self a rest)

theorem jsOrNull_some_inj {a b : String} (h : jsOrNull (some a) = some b) :
    a = b := by
  simp only [jsOrNull] at h
  by_cases ha : a = ""
  · rw [if_pos ha] at h; cases h
  · rw [if_neg ha] at h; injection h

theorem ensureActive_ok (st : BmState) (hwf : bmWf st) :
    activeOk (ensureActiveBattlemap st) := by
  unfold ensureActiveBattlemap
  cases hj : jsOrNull st.activeBattlemapId with
  | some id =>
      dsimp only
      by_cases hm : mhas st.maps id = true
      · rw [if_pos hm]
        unfold activeOk
        cases hact : st.activeBattlemapId with
        | none => rw [hact] at hj; cases hj
        | some a =>
            have ha : a = id := jsOrNull_some_inj (hact ▸ hj)
            exact ha ▸ hm
      · rw [if_neg hm]
        exact fallbackActive_ok st hwf
  | none => exact fallbackActive_ok st hwf

theorem bmWf_active_irrelevant (st : BmState) (a : Option String)
    (h : bmWf st) : bmWf { st with activeBattlemapId := a } := h

theorem ensureActive_wf (st : BmState) (hwf : bmWf st) :
    bmWf (ensureActiveBattlemap st) := by
  unfold ensureActiveBattlemap
  cases hj : jsOrNull st.activeBattlemapId with
  | some id =>
      dsimp only
      by_cases hm : mhas st.maps id = true
      · rw [if_pos hm]; exact hwf
      · rw [if_neg hm]; exact hwf
  | none => exact hwf

theorem bmWf_append_mset (st : BmState) (g : String) (b : Battlemap)
    (a : Option String) (hid : b.id = g) (h : bmWf st) :
    bmWf ⟨st.order ++ [g], mset st.maps g b, a⟩ := by
  refine ⟨?_, ?_, ?_⟩
  · intro id hin
    rcases List.mem_append.mp hin with h' | h'
    · exact mhas_mset_of_mhas _ _ _ _ (h.1 id h')
    · rw [List.mem_singleton] at h'
      subst h'
      exact mhas_mset_self _ _ _
  · intro q hq
    rcases mem_mset _ _ _ _ hq with h' | h'
    · rw [h']
      exact List.mem_append_right _ (List.mem_singleton_self g)
    · exact List.mem_append_left _ (h.2.1 q h')
  · intro q hq
    rcases mem_mset _ _ _ _ hq with h' | h'
    · rw [h']; exact hid
    · exact h.2.2 q h'

theorem bmWf_mset_existing (st : BmState) (k : String) (b1 : Battlemap)
    (a : Option String) (hk : k ∈ st.order) (hid : b1.id = k) (h : bmWf st) :
    bmWf ⟨st.order, mset st.maps k b1, a⟩ := by
  refine ⟨?_, ?_, ?_⟩
  · intro id hin
    exact mhas_mset_of_mhas _ _ _ _ (h.1 id hin)
  · intro q hq
    rcases mem_mset _ _ _ _ hq with h' | h'
    · rw [h']; exact hk
    · exact h.2.1 q h'
  · intro q hq
    rcases mem_mset _ _ _ _ hq with h' | h'
    · rw [h']; exact hid
    · exact h.2.2 q h'

theorem activeOk_mset (st : BmState) (k : String) (b1 : Battlemap)
    (h : activeOk st) : activeOk ⟨st.order, mset st.maps k b1, st.activeBattlemapId⟩ := by
  unfold activeOk at h ⊢
  cases hact : st.activeBattlemapId with
  | some a =>
      rw [hact] at h
      exact mhas_mset_of_mhas _ _ _ _ h
  | none => rw [hact] at h; exact h

/-- The facts the registry invariant yields about a successful lookup. -/
theorem lookup_facts (st : BmState) (bid : Option (JsVal String)) (b : Battlemap)
    (hwf : bmWf st) (h : lookupBattlemap st bid = Except.ok b) :
    b.id ∈ st.order := by
  obtain ⟨k, hk⟩ := lookupBattlemap_ok_mem st bid b h
  have hbid : b.id = k := hwf.2.2 (k, b) hk
  rw [hbid]
  exact hwf.2.1 (k, b) hk

theorem bmSetActive_inv (conn : Option UserData) (st : BmState)
    (bid : Option (JsVal String)) (h : bmInvariant st) :
    bmInvariant (bmSetActive conn st bid).1 := by
  unfold bmSetActive
  split
  · exact h
  · split
    · rename_i s
      split
      · exact h
      · rename_i hguard
        have hm : mhas st.maps s = true := by
          rcases not_or.mp hguard with ⟨h1, h2⟩
          exact not_not.mp h2
        split
        · exact ⟨h.1, hm⟩
        · exact h
    · exact h

theorem bmCreate_inv (conn : Option UserData) (st : BmState)
    (name mapPath : Option (JsVal String)) (genId : String)
    (h : bmInvariant st) : bmInvariant (bmCreate conn st name mapPath genId).1 := by
  unfold bmCreate
  split
  · exact h
  · dsimp only
    split
    · rename_i x hj
      refine ⟨bmWf_append_mset st genId _ _ rfl h.1, ?_⟩
      unfold activeOk
      cases hact : st.activeBattlemapId with
      | none => rw [hact] at hj; cases hj
      | some a =>
          have ha := h.2
          unfold activeOk at ha
          rw [hact] at ha
          exact mhas_mset_of_mhas _ _ _ _ ha
    · exact ⟨bmWf_append_mset st genId _ _ rfl h.1, mhas_mset_self _ _ _⟩

theorem bmRename_inv (conn : Option UserData) (st : BmState)
    (battlemapId name : Option (JsVal String)) (h : bmInvariant st) :
    bmInvariant (bmRename conn st battlemapId name).1 := by
  unfold bmRename
  split
  · exact h
  · split
    · exact h
    · rename_i b heq
      exact ⟨bmWf_mset_existing st b.id _ _ (lookup_facts st battlemapId b h.1 heq) rfl h.1,
             activeOk_mset st b.id _ h.2⟩

theorem bmUpdateMapPath_inv (conn : Option UserData) (st : BmState)
    (battlemapId mapPath : Option (JsVal String)) (h : bmInvariant st) :
    bmInvariant (bmUpdateMapPath conn st battlemapId mapPath).1 := by
  unfold bmUpdateMapPath
  split
  · exact h
  · split
    · exact h
    · rename_i b heq
      exact ⟨bmWf_mset_existing st b.id _ _ (lookup_facts st battlemapId b h.1 heq) rfl h.1,
             activeOk_mset st b.id _ h.2⟩

theorem bmUpdateSettings_inv (conn : Option UserData) (st : BmState)
    (battlemapId : Option (JsVal String)) (a b c : Option ℚ)
    (h : bmInvariant st) :
    bmInvariant (bmUpdateSettings conn st battlemapId a b c).1 := by
  unfold bmUpdateSettings
  split
  · exact h
  · split
    · exact h
    · rename_i bm heq
      exact ⟨bmWf_mset_existing st bm.id _ _ (lookup_facts st battlemapId bm h.1 heq) rfl h.1,
             activeOk_mset st bm.id _ h.2⟩

theorem bmUpdateGridData_inv (conn : Option UserData) (st : BmState)
    (battlemapId : Option (JsVal String)) (gd : Option GridDataInput)
    (h : bmInvariant st) :
    bmInvariant (bmUpdateGridData conn st battlemapId gd).1 := by
  unfold bmUpdateGridData
  split
  · exact h
  · split
    · exact h
    · rename_i b heq
      exact ⟨bmWf_mset_existing st b.id _ _ (lookup_facts st battlemapId b h.1 heq) rfl h.1,
             activeOk_mset st b.id _ h.2⟩

theorem bmAddCover_inv (conn : Option UserData) (st : BmState)
    (battlemapId : Option (JsVal String)) (cover : CoverInput) (genId : String)
    (h : bmInvariant st) :
    bmInvariant (bmAddCover conn st battlemapId cover genId).1 := by
  unfold bmAddCover
  split
  · exact h
  · split
    · exact h
    · rename_i b heq
      exact ⟨bmWf_mset_existing st b.id _ _ (lookup_facts st battlemapId b h.1 heq) rfl h.1,
             activeOk_mset st b.id _ h.2⟩

theorem bmUpdateCover_inv (conn : Option UserData) (st : BmState)
    (battlemapId coverId : Option (JsVal String)) (updates : CoverFields)
    (h : bmInvariant st) :
    bmInvariant (bmUpdateCover conn st battlemapId coverId updates).1 := by
  unfold bmUpdateCover
  split
  · exact h
  · split
    · exact h
    · rename_i b heq
      cases coverId with
      | none => exact h
      | some v =>
          cases v with
          | junk => exact h
          | val cid =>
              dsimp only
              split
              · exact ⟨bmWf_mset_existing st b.id _ _
                        (lookup_facts st battlemapId b h.1 heq) rfl h.1,
                       activeOk_mset st b.id _ h.2⟩
              · exact h

theorem bmRemoveCover_inv (conn : Option UserData) (st : BmState)
    (battlemapId coverId : Option (JsVal String)) (h : bmInvariant st) :
    bmInvariant (bmRemoveCover conn st battlemapId coverId).1 := by
  unfold bmRemoveCover
  split
  · exact h
  · split
    · exact h
    · rename_i b heq
      split
      · split
        · exact h
        · exact ⟨bmWf_mset_existing st b.id _ _
                  (lookup_facts st battlemapId b h.1 heq) rfl h.1,
                 activeOk_mset st b.id _ h.2⟩
      · exact h

theorem bmDelete_inv (conn : Option UserData) (st : BmState)
    (battlemapId : Option (JsVal String)) (h : bmInvariant st) :
    bmInvariant (bmDelete conn st battlemapId).1 := by
  unfold bmDelete
  split
  · exact h
  · split
    · exact h
    · rename_i b heq
      have hwf1 : bmWf ⟨st.order.filter (fun id => id ≠ b.id), mdel st.maps b.id,
          st.activeBattlemapId⟩ := by
        refine ⟨?_, ?_, ?_⟩
        · intro id hin
          rw [List.mem_filter] at hin
          obtain ⟨hin, hne⟩ := hin
          have hne' : id ≠ b.id := by simpa using hne
          rw [mhas_mdel_ne _ _ _ hne']
          exact h.1.1 id hin
        · intro q hq
          have hne := mem_mdel_ne _ _ _ hq
          have hmem := mem_mdel _ _ _ hq
          rw [List.mem_filter]
          exact ⟨h.1.2.1 q hmem, by simpa using hne⟩
        · intro q hq
          exact h.1.2.2 q (mem_mdel _ _ _ hq)
      dsimp only
      split
      · exact ⟨ensureActive_wf _ hwf1, ensureActive_ok _ hwf1⟩
      · rename_i hne
        refine ⟨hwf1, ?_⟩
        unfold activeOk
        cases hact : st.activeBattlemapId with
        | none =>
            have hord : st.order = [] := by
              have := h.2
              unfold activeOk at this
              rw [hact] at this
              exact this
            simp [hord]
        | some a =>
            have haneb : a ≠ b.id := by
              intro hcon
              exact hne (by rw [hact, hcon])
            have hm := h.2
            unfold activeOk at hm
            rw [hact] at hm
            dsimp only
            rw [mhas_mdel_ne _ _ _ haneb]
            exact hm

theorem foldl_rows_mhas (rows : List BmRow) (acc : List (String × Battlemap))
    (id : String) (h : id ∈ rows.map BmRow.id ∨ mhas acc id = true) :
    mhas (rows.foldl (fun a row => mset a row.id (rowToBattlemap row)) acc) id = true := by
  induction rows generalizing acc with
  | nil =>
      rcases h with h | h
      · simp at h
      · exact h
  | cons row rest ih =>
      refine ih _ ?_
      rcases h with h | h
      · rw [List.map_cons, List.mem_cons] at h
        rcases h with h | h
        · subst h
          exact Or.inr (mhas_mset_self _ _ _)
        · exact Or.inl h
      · exact Or.inr (mhas_mset_of_mhas _ _ _ _ h)

theorem foldl_rows_entries (rows : List BmRow) (acc : List (String × Battlemap))
    (P : String × Battlemap → Prop) (hacc : ∀ q ∈ acc, P q)
    (hrow : ∀ row ∈ rows, P (row.id, rowToBattlemap row)) :
    ∀ q ∈ rows.foldl (fun a row => mset a row.id (rowToBattlemap row)) acc, P q := by
  induction rows generalizing acc with
  | nil => exact hacc
  | cons row rest ih =>
      refine ih _ ?_ (fun r hr => hrow r (List.mem_cons_of_mem _ hr))
      intro q hq
      rcases mem_mset _ _ _ _ hq with h' | h'
      · rw [h']
        exact hrow row (List.mem_cons_self _ _)
      · exact hacc q h'

theorem applyCoverRow_mhas (maps : List (String × Battlemap)) (c : CoverRow)
    (id : String) : mhas (applyCoverRow maps c) id = mhas maps id := by
  unfold applyCoverRow
  split
  · rename_i parent hparent
    by_cases hid : id = c.battlemapId
    · subst hid
      rw [mhas_mset_self]
      simp [mhas, hparent]
    · exact mhas_mset_ne _ _ _ _ hid
  · rfl

theorem foldl_coverRows_mhas (crs : List CoverRow)
    (maps : List (String × Battlemap)) (id : String) :
    mhas (crs.foldl applyCoverRow maps) id = mhas maps id := by
  induction crs generalizing maps with
  | nil => rfl
  | cons c rest ih => rw [List.foldl_cons, ih, applyCoverRow_mhas]

theorem foldl_coverRows_entries (crs : List CoverRow)
    (maps : List (String × Battlemap)) (O : List String)
    (h : ∀ q ∈ maps, q.1 ∈ O ∧ q.2.id = q.1) :
    ∀ q ∈ crs.foldl applyCoverRow maps, q.1 ∈ O ∧ q.2.id = q.1 := by
  induction crs generalizing maps with
  | nil => exact h
  | cons c rest ih =>
      refine ih _ ?_
      intro q hq
      unfold applyCoverRow at hq
      split at hq
      · rename_i parent hparent
        rcases mem_mset _ _ _ _ hq with h' | h'
        · have hp := h (c.battlemapId, parent)
            (mem_of_mget_eq_some _ _ _ hparent)
          rw [h']
          exact ⟨hp.1, hp.2⟩
        · exact h q h'
      · exact h q hq

theorem loadBattlemapState_inv (rows : List BmRow) (coverRows : List CoverRow)
    (seedId : String) : bmInvariant (loadBattlemapState rows coverRows seedId) := by
  unfold loadBattlemapState
  dsimp only
  set battlemapRows := if rows.isEmpty then [seedRow seedId] else rows with hbr
  set maps0 := battlemapRows.foldl
    (fun acc row => mset acc row.id (rowToBattlemap row)) [] with hm0
  set maps1 := coverRows.foldl applyCoverRow maps0 with hm1
  have hentries : ∀ q ∈ maps1, q.1 ∈ battlemapRows.map BmRow.id ∧ q.2.id = q.1 := by
    refine foldl_coverRows_entries coverRows maps0 _ ?_
    refine foldl_rows_entries battlemapRows [] _ (by intro q hq; simp at hq) ?_
    intro row hrow
    exact ⟨List.mem_map_of_mem BmRow.id hrow, rfl⟩
  have hwf0 : bmWf ⟨battlemapRows.map BmRow.id, maps1, none⟩ := by
    refine ⟨?_, ?_, ?_⟩
    · intro id hin
      rw [hm1, foldl_coverRows_mhas]
      exact foldl_rows_mhas battlemapRows [] id (Or.inl hin)
    · intro q hq
      exact (hentries q hq).1
    · intro q hq
      exact (hentries q hq).2
  exact ⟨hwf0, fallbackActive_ok ⟨battlemapRows.map BmRow.id, maps1, none⟩ hwf0⟩

/-- One scene operation preserves the registry invariant. -/
theorem applySceneOp_bmInvariant (s : SceneState) (op : SceneOp)
    (h : bmInvariant s.bm) : bmInvariant (applySceneOp s op).bm := by
  cases op with
  | boot rows coverRows seedId => exact loadBattlemapState_inv rows coverRows seedId
  | create conn name mapPath genId => exact bmCreate_inv conn s.bm name mapPath genId h
  | setActive conn battlemapId => exact bmSetActive_inv conn s.bm battlemapId h
  | rename conn battlemapId name => exact bmRename_inv conn s.bm battlemapId name h
  | updateMapPath conn battlemapId mapPath =>
      exact bmUpdateMapPath_inv conn s.bm battlemapId mapPath h
  | updateSettings conn battlemapId a b c =>
      exact bmUpdateSettings_inv conn s.bm battlemapId a b c h
  | updateGridData conn battlemapId gd =>
      exact bmUpdateGridData_inv conn s.bm battlemapId gd h
  | deleteMap conn battlemapId => exact bmDelete_inv conn s.bm battlemapId h
  | addCoverB conn battlemapId cover genId =>
      exact bmAddCover_inv conn s.bm battlemapId cover genId h
  | updateCoverB conn battlemapId coverId updates =>
      exact bmUpdateCover_inv conn s.bm battlemapId coverId updates h
  | removeCoverB conn battlemapId coverId =>
      exact bmRemoveCover_inv conn s.bm battlemapId coverId h
  | addCoverL data genId => exact h
  | updateCoverL data => exact h
  | removeCoverL id => exact h

/-- C7: (1) after boot and after any sequence of battlemap operations,
`activeBattlemapId` references an existing battlemap whenever the registry
is nonempty and is null exactly when it is empty (together with registry
well-formedness); (2) `battlemap:delete` of the active battlemap removes it
(and with it all its covers, which live inside it), succeeds, and the new
`activeBattlemapId` equals `fallbackActive` of the remaining registry —
i.e. the designated default battlemap if one remains, else the first
remaining battlemap in registry order, else null. -/
theorem active_battlemap_invariant :
    (∀ ops : List SceneOp, bmInvariant (runScene ops).bm) ∧
    (∀ (conn : Option UserData) (st : BmState) (s : String) (b : Battlemap),
       allowMutation conn = true → s ≠ "" → mget st.maps s = some b →
       b.id = s → st.activeBattlemapId = some s →
       (bmDelete conn st (some (JsVal.val s))).2.2 = Ack.success none ∧
       mget (bmDelete conn st (some (JsVal.val s))).1.maps s = none ∧
       (bmDelete conn st (some (JsVal.val s))).1.activeBattlemapId =
         fallbackActive ⟨st.order.filter (fun id => id ≠ s),
                         mdel st.maps s, st.activeBattlemapId⟩) := by
  constructor
  · intro ops
    have hfold : ∀ (l : List SceneOp) (s : SceneState),
        bmInvariant s.bm → bmInvariant (l.foldl applySceneOp s).bm := by
      intro l
      induction l with
      | nil => intro s hs; exact hs
      | cons op rest ih =>
          intro s hs
          exact ih _ (applySceneOp_bmInvariant s op hs)
    refine hfold ops SceneState.empty ?_
    refine ⟨⟨?_, ?_, ?_⟩, ?_⟩ <;>
      simp [SceneState.empty, BmState.empty, activeOk]
  · intro conn st s b hauth hs hget hbid hact
    have hlook : lookupBattlemap st (some (JsVal.val s)) = Except.ok b := by
      simp [lookupBattlemap, hs, hget]
    set st1 : BmState := ⟨st.order.filter (fun id => id ≠ b.id),
      mdel st.maps b.id, st.activeBattlemapId⟩ with hst1
    have hD1 : (bmDelete conn st (some (JsVal.val s))).1 = ensureActiveBattlemap st1 := by
      simp [bmDelete, hauth, hlook, hact, hbid, hst1]
    have hD2 : (bmDelete conn st (some (JsVal.val s))).2.2 = Ack.success none := by
      simp [bmDelete, hauth, hlook, hact, hbid]
    have hmh : mhas st1.maps s = false := by
      simp only [hst1]
      rw [hbid]
      simp [mhas, mget_mdel_self]
    have hjs1 : jsOrNull st1.activeBattlemapId = some s := by
      simp only [hst1]
      rw [hact]
      simp [jsOrNull, hs]
    refine ⟨hD2, ?_, ?_⟩
    · rw [hD1, ensureActiveBattlemap_maps]
      simp only [hst1]
      rw [hbid]
      exact mget_mdel_self _ _
    · rw [hD1]
      unfold ensureActiveBattlemap
      rw [hjs1]
      dsimp only
      rw [if_neg (by simp [hmh])]
      simp only [hst1]
      rw [hbid]

/-- Witness for C7: the invariant after a concrete boot-and-create run, and
the delete fallback at the one-battlemap fixture. -/
theorem active_battlemap_invariant_witness :
    bmInvariant (runScene [SceneOp.boot [] [] "seed",
      SceneOp.create (some gmUser) none none "m2"]).bm ∧
    ((bmDelete (some gmUser) bmOne (some (JsVal.val "m1"))).2.2 = Ack.success none ∧
     mget (bmDelete (some gmUser) bmOne (some (JsVal.val "m1"))).1.maps "m1" = none ∧
     (bmDelete (some gmUser) bmOne (some (JsVal.val "m1"))).1.activeBattlemapId =
       fallbackActive ⟨bmOne.order.filter (fun id => id ≠ "m1"),
                       mdel bmOne.maps "m1", bmOne.activeBattlemapId⟩) :=
  ⟨active_battlemap_invariant.1 [SceneOp.boot [] [] "seed",
     SceneOp.create (some gmUser) none none "m2"],
   active_battlemap_invariant.2 (some gmUser) bmOne "m1" mapOne (by decide)
     (by decide) (by decide) (by decide) (by decide)⟩

end Dagor
